import Mathlib

/-!
Verification of the server-side simulation core of the asteroids-multiplayer
repository, shallowly embedded in Lean 4.

The embedding follows `ServerModels.ts` (the newer version, which implements
the `CollidingObject` protocol) and `Server.ts`.  Conventions:

* JavaScript numbers are modelled as exact rationals (`ℚ`) for coordinates and
  velocities, and as integers (`ℤ`/`ℕ`) for counters, timestamps and ids.
* Floating-point vector operations that involve transcendental functions
  (Victor's `rotateBy`/`norm`/`normalize` chains, which call `Math.cos`,
  `Math.sin`, `Math.sqrt`) are carried as explicit function parameters: the
  code's data flow into and out of these chains is preserved exactly, only the
  numeric value of the chain is abstract.
* Calls to `Math.random` / `Utils.randInt` / `Date.now` are modelled by
  explicit oracle parameters supplying the drawn values.
* In-place object mutation is modelled by explicit state passing; object
  identity of pooled bullets and asteroids is tracked through their `id`
  fields (bullet and asteroid ids are `uuid()` strings in the source,
  modelled as `ℕ`).
-/

/-- A 2-d vector (Victor instance) with exact rational components. -/
abbrev Vec : Type := ℚ × ℚ

/-- An `RGBColor` value from react-color, as stored on players and bullets. -/
structure RGB where
  r : ℤ
  g : ℤ
  b : ℤ
deriving DecidableEq, Repr

/-- State of a `ServerBullet` instance.  `firerId` is the owning player's id
(`string | null` in the source, hence `Option ℕ`), `vel` the Victor velocity,
`needsToBeRecycled` the recycle flag.  The derived `dtoObject` is omitted
(it mirrors these fields for serialization only). -/
structure ServerBullet where
  id : ℕ
  x : ℚ
  y : ℚ
  heading : ℚ
  firerId : Option ℕ
  vel : Vec
  color : RGB
  needsToBeRecycled : Bool
deriving DecidableEq, Repr

/-- The fixed bullet speed (`ServerBullet.speed = 10`). -/
def ServerBullet.speed : ℚ := 10

/-- The fixed bullet size (`size = 5`), which is also its
`maxCollidingDistance`. -/
def ServerBullet.size : ℚ := 5

/-- A freshly constructed `new ServerBullet()`: position `(0,0)`, heading `0`,
no firer, zero velocity, white color, recycle flag clear.  The `uuid()` drawn
for the instance is the parameter `id`. -/
def ServerBullet.mk0 (id : ℕ) : ServerBullet :=
  { id := id, x := 0, y := 0, heading := 0, firerId := none, vel := (0, 0),
    color := { r := 255, g := 255, b := 255 }, needsToBeRecycled := false }

/-- `ServerBullet.setInitValues`.  The velocity is computed by the source as
`this.velocity.addScalar(1).rotateBy(heading + HALF_PI).norm().multiplyScalar(10)`,
i.e. the float chain is applied to the bullet's current velocity shifted by
`(1,1)`; the chain itself (rotation by the heading, normalization, scaling to
speed 10) is the parameter `rot`, taking the shifted vector and the heading.
Note the recycle flag is not touched here. -/
def ServerBullet.setInitValues (rot : Vec → ℚ → Vec) (b : ServerBullet)
    (firerId : ℕ) (x y heading : ℚ) (color : RGB) : ServerBullet :=
  { b with firerId := some firerId, x := x, y := y, heading := heading,
           vel := rot (b.vel.1 + 1, b.vel.2 + 1) heading, color := color }

/-- `ServerBullet.update(width, height)`: straight-line motion, then the
recycle flag is set (only if not already set) when the new position leaves
`[0,width] × [0,height]`. -/
def ServerBullet.update (w h : ℚ) (b : ServerBullet) : ServerBullet :=
  let x := b.x + b.vel.1
  let y := b.y + b.vel.2
  { b with x := x, y := y,
           needsToBeRecycled :=
             if b.needsToBeRecycled then true
             else decide (x > w) || decide (x < 0) || decide (y > h) || decide (y < 0) }

/-- `ServerBullet.prepareRecycle`: move to the out-of-play sentinel
`(-1000, -1000)`, clear heading, zero the velocity, clear the firer and the
recycle flag. -/
def ServerBullet.prepareRecycle (b : ServerBullet) : ServerBullet :=
  { b with x := -1000, y := -1000, heading := 0, vel := (0, 0),
           firerId := none, needsToBeRecycled := false }

/-- A bullet is in the inert pooled configuration left by `prepareRecycle`. -/
def ServerBullet.isReset (b : ServerBullet) : Prop :=
  b.firerId = none ∧ b.x = -1000 ∧ b.y = -1000 ∧ b.heading = 0 ∧
    b.vel = (0, 0) ∧ b.needsToBeRecycled = false

instance (b : ServerBullet) : Decidable b.isReset := by
  unfold ServerBullet.isReset; infer_instance

/-- The `BulletHouse` pool: `bullets` is the active (onscreen) list,
`recycledBullets` the pooled (offscreen) list, both in JS-array order
(push and pop act on the end of the list). -/
structure BulletHouse where
  recycledBullets : List ServerBullet
  bullets : List ServerBullet
deriving DecidableEq, Repr

/-- The empty pool a fresh `BulletHouse` starts with. -/
def BulletHouse.empty : BulletHouse := { recycledBullets := [], bullets := [] }

/-- `BulletHouse.createOrGetBullet`: pop a recycled instance off the end of
`recycledBullets` if any, else allocate a fresh one (whose `uuid()` is the
parameter `freshId`).  Returns the chosen bullet and the remaining recycled
list. -/
def BulletHouse.createOrGetBullet (house : BulletHouse) (freshId : ℕ) :
    ServerBullet × List ServerBullet :=
  match house.recycledBullets.getLast? with
  | some b => (b, house.recycledBullets.dropLast)
  | none => (ServerBullet.mk0 freshId, house.recycledBullets)

/-- `BulletHouse.fireBullet(firerId, x, y, heading, color)`: obtain a bullet
via `createOrGetBullet`, initialize it with `setInitValues`, and push it onto
the active list. -/
def BulletHouse.fireBullet (rot : Vec → ℚ → Vec) (freshId firerId : ℕ)
    (x y heading : ℚ) (color : RGB) (house : BulletHouse) : BulletHouse :=
  let pick := house.createOrGetBullet freshId
  { recycledBullets := pick.2,
    bullets := house.bullets ++ [pick.1.setInitValues rot firerId x y heading color] }

/-- One pass of the `while (i--)` loop body of `BulletHouse.update` over the
active list: every bullet is advanced by `ServerBullet.update`; bullets whose
recycle flag is then set are removed from the active list and appended, reset,
to the recycled list.  The loop walks indices downward, so recycled bullets
are appended in reverse list order; the recursion below reproduces that. -/
def BulletHouse.updateStep (w h : ℚ) :
    List ServerBullet → List ServerBullet × List ServerBullet
  | [] => ([], [])
  | b :: rest =>
      let tail := BulletHouse.updateStep w h rest
      let b2 := b.update w h
      if b2.needsToBeRecycled then (tail.1, tail.2 ++ [b2.prepareRecycle])
      else (b2 :: tail.1, tail.2)

/-- `BulletHouse.update(width, height)`: advance all active bullets and move
the ones flagged for recycling, reset, onto the recycled list. -/
def BulletHouse.update (w h : ℚ) (house : BulletHouse) : BulletHouse :=
  let step := BulletHouse.updateStep w h house.bullets
  { bullets := step.1, recycledBullets := house.recycledBullets ++ step.2 }

/-- Remove the first element satisfying `p` from a list, returning it (if any)
together with the remaining list.  This models `findIndex` + `splice(index, 1)`. -/
def extractFirst (p : α → Bool) : List α → Option α × List α
  | [] => (none, [])
  | a :: rest =>
      if p a then (some a, rest)
      else
        let tail := extractFirst p rest
        (tail.1, a :: tail.2)

/-- `BulletHouse.recycleBulletById(id)`: if an active bullet has this id, the
first such is removed from the active list and pushed, reset, onto the
recycled list; otherwise a no-op. -/
def BulletHouse.recycleBulletById (id : ℕ) (house : BulletHouse) : BulletHouse :=
  match extractFirst (fun b => b.id == id) house.bullets with
  | (none, _) => house
  | (some b, rest) =>
      { bullets := rest,
        recycledBullets := house.recycledBullets ++ [b.prepareRecycle] }

/-- The `while (i--)` loop of `BulletHouse.recycleBulletsByFirerId`: all
active bullets with the given firer are removed and pushed, reset, onto the
recycled list (in reverse list order, as the loop walks downward). -/
def BulletHouse.recycleByFirerStep (firerId : ℕ) :
    List ServerBullet → List ServerBullet × List ServerBullet
  | [] => ([], [])
  | b :: rest =>
      let tail := BulletHouse.recycleByFirerStep firerId rest
      if b.firerId == some firerId then (tail.1, tail.2 ++ [b.prepareRecycle])
      else (b :: tail.1, tail.2)

/-- `BulletHouse.recycleBulletsByFirerId(firerId)`. -/
def BulletHouse.recycleBulletsByFirerId (firerId : ℕ) (house : BulletHouse) :
    BulletHouse :=
  let step := BulletHouse.recycleByFirerStep firerId house.bullets
  { bullets := step.1, recycledBullets := house.recycledBullets ++ step.2 }

/-- The multiset of ids of every bullet instance currently held by the pool,
active or recycled. -/
def BulletHouse.allIds (house : BulletHouse) : Multiset ℕ :=
  (((house.bullets ++ house.recycledBullets).map (fun b => b.id) : List ℕ) : Multiset ℕ)

/-- Pool well-formedness: every instance ever handed out is in exactly one of
the two lists, exactly once (no id occurs twice across them), and every
recycled instance is reset. -/
def BulletHouse.WF (house : BulletHouse) : Prop :=
  house.allIds.Nodup ∧ ∀ b ∈ house.recycledBullets, b.isReset

/-- The random draws consumed by the `ServerAsteroid` constructor and by
`createPieceOf`.  `sx`/`sy` model `setRandomSpawnPoint` (a random point in one
of the four offscreen edge bands); `rotationSpeed`, `speed`, `maxD`, `minD`
model the `Utils.map(Math.random(), ...)` / `Utils.randInt` draws (their
ranges depend on the size class); `verts` models the randomized polygon
outline (whose coordinates are `r·cos`, `r·sin` floats); `dx`, `dy` model the
`Utils.map(Math.random(), 0, 1, -20, 20)` offsets of a piece from its parent,
and `pieceVel` the piece's random direction normalized and scaled to `speed`
(a float chain). -/
structure AstRand where
  sx : ℚ
  sy : ℚ
  rotationSpeed : ℚ
  speed : ℚ
  maxD : ℚ
  minD : ℚ
  verts : List Vec
  dx : ℚ
  dy : ℚ
  pieceVel : Vec
deriving DecidableEq, Repr

/-- State of a `ServerAsteroid`.  `maxD`/`minD` are `maxCollidingDistance` /
`minCollidingDistance`; `isBig` is the immutable size class.  The
`gameEventsHandler` reference and the derived `dtoObject` are omitted (events
are returned as data below). -/
structure ServerAsteroid where
  id : ℕ
  x : ℚ
  y : ℚ
  rotation : ℚ
  rotationSpeed : ℚ
  vel : Vec
  speed : ℚ
  needNewTarget : Bool
  isBig : Bool
  maxCollidingDistance : ℚ
  minCollidingDistance : ℚ
  vertices : List Vec
deriving DecidableEq, Repr

/-- The `outsideThreshold` margin (50) used by the offscreen test. -/
def ServerAsteroid.outsideThreshold : ℚ := 50

/-- The `ServerAsteroid` constructor: spawn at a random offscreen point,
rotation `0`, zero velocity, `needNewTarget` initially `true`; rotation speed,
speed, collision radii and outline come from the size-class-dependent random
draws `r`. -/
def ServerAsteroid.mk0 (id : ℕ) (isBig : Bool) (r : AstRand) : ServerAsteroid :=
  { id := id, x := r.sx, y := r.sy, rotation := 0, rotationSpeed := r.rotationSpeed,
    vel := (0, 0), speed := r.speed, needNewTarget := true, isBig := isBig,
    maxCollidingDistance := r.maxD, minCollidingDistance := r.minD,
    vertices := r.verts }

/-- `ServerAsteroid.createPieceOf(width, height, bigAsteroid)`: a small
asteroid constructed as usual, then moved to the parent's position plus a
random offset in `[-20, 20]` on each axis, with `needNewTarget` cleared and a
random divergent velocity of magnitude `speed`. -/
def ServerAsteroid.createPieceOf (id : ℕ) (r : AstRand) (big : ServerAsteroid) :
    ServerAsteroid :=
  { ServerAsteroid.mk0 id false r with
      x := big.x + r.dx, y := big.y + r.dy, needNewTarget := false,
      vel := r.pieceVel }

/-- `ServerAsteroid.setTarget(x, y)`: re-roll the speed (a random draw whose
range depends on the size class) and set the velocity to the unit vector from
the asteroid towards the target scaled by that speed (a float chain); both
drawn values are supplied as `sp` and `v`.  Clears `needNewTarget`. -/
def ServerAsteroid.setTarget (a : ServerAsteroid) (sp : ℚ) (v : Vec) :
    ServerAsteroid :=
  { a with speed := sp, vel := v, needNewTarget := false }

/-- `ServerAsteroid.update(width, height)`: advance rotation and position;
`needNewTarget` becomes `true` (sticky) once the asteroid's collision disc
plus the outside margin has fully cleared the world bounds. -/
def ServerAsteroid.update (w h : ℚ) (a : ServerAsteroid) : ServerAsteroid :=
  let x := a.x + a.vel.1
  let y := a.y + a.vel.2
  { a with x := x, y := y, rotation := a.rotation + a.rotationSpeed,
           needNewTarget :=
             if a.needNewTarget then true
             else decide (x - a.maxCollidingDistance > w + ServerAsteroid.outsideThreshold)
               || decide (x + a.maxCollidingDistance < -ServerAsteroid.outsideThreshold)
               || decide (y - a.maxCollidingDistance > h + ServerAsteroid.outsideThreshold)
               || decide (y + a.maxCollidingDistance < -ServerAsteroid.outsideThreshold) }

/-- A `PlayerInputDTO`: the per-session input flags. -/
structure PlayerInput where
  up : Bool
  left : Bool
  right : Bool
  fire : Bool
deriving DecidableEq, Repr

/-- State of a `ServerPlayer`.  `thenTime`/`nowTime`/`fireDelta` are the
`then`/`now`/`fireDelta` millisecond timestamps of the fire cooldown
(`Date.now()` values, supplied by an oracle); `invincibleCountdown` is the
post-spawn invincibility frame counter.  The `bulletHouse` and
`gameEventsHandler` references and the derived `dtoObject` are omitted (the
pool is threaded explicitly, events are returned as data). -/
structure ServerPlayer where
  id : ℕ
  name : String
  origColor : RGB
  currColor : RGB
  x : ℚ
  y : ℚ
  heading : ℚ
  showTail : Bool
  vel : Vec
  acc : Vec
  boostingForce : Vec
  rotation : ℚ
  isBoosting : Bool
  isFiring : Bool
  thenTime : ℤ
  nowTime : ℤ
  fireDelta : ℤ
  asteroidPoints : ℕ
  killingPoints : ℕ
  invincibleCountdown : ℤ
deriving DecidableEq, Repr

/-- The fixed ship size (`size = 15`), which is also the wraparound radius. -/
def ServerPlayer.size : ℚ := 15

/-- The ship's fixed collision outer radius (`maxCollidingDistance = 21.21`). -/
def ServerPlayer.maxCollidingDistance : ℚ := 2121 / 100

/-- The ship's fixed collision inner radius (`minCollidingDistance = 6.7`). -/
def ServerPlayer.minCollidingDistance : ℚ := 67 / 10

/-- The ship's fixed speed cap (`maxSpeed = 8`). -/
def ServerPlayer.maxSpeed : ℚ := 8

/-- The fire cooldown in milliseconds (`fireInterval = 1000 / 4`). -/
def ServerPlayer.fireInterval : ℤ := 250

/-- The `ServerPlayer` constructor.  `heading0` stands for the initial heading
`Constants.HALF_PI` (an irrational radian value, supplied as a parameter in
this rational-arithmetic model) and `then0` for the construction-time
`Date.now()`.  The invincibility countdown starts at 255 frames. -/
def ServerPlayer.mk0 (id : ℕ) (name : String) (color : RGB) (x y heading0 : ℚ)
    (then0 : ℤ) : ServerPlayer :=
  { id := id, name := name, origColor := color, currColor := color,
    x := x, y := y, heading := heading0, showTail := false,
    vel := (0, 0), acc := (0, 0), boostingForce := (0, 0), rotation := 0,
    isBoosting := false, isFiring := false,
    thenTime := then0, nowTime := 0, fireDelta := 0,
    asteroidPoints := 0, killingPoints := 0, invincibleCountdown := 255 }

/-- `isInvincible`: the ship is invincible iff its countdown is positive. -/
def ServerPlayer.isInvincible (p : ServerPlayer) : Bool :=
  decide (0 < p.invincibleCountdown)

/-- `ServerPlayer.applyInput(input)`: set boosting, discrete turn direction
(left wins over right; neither pressed clears the turn), and firing intent. -/
def ServerPlayer.applyInput (p : ServerPlayer) (input : PlayerInput) : ServerPlayer :=
  { p with isBoosting := input.up,
           rotation :=
             if input.left then -(8/100 : ℚ)
             else if input.right then (8/100 : ℚ)
             else 0,
           isFiring := input.fire }

/-- `ServerPlayer.checkEdges(width, height)` (private): toroidal wraparound.
A coordinate more than one ship radius past an edge is teleported one radius
past the opposite edge; each axis is an independent if/else-if. -/
def ServerPlayer.checkEdges (w h : ℚ) (p : ServerPlayer) : ServerPlayer :=
  let r := ServerPlayer.size
  let x2 := if p.x > w + r then -r else if p.x < -r then w + r else p.x
  let y2 := if p.y > h + r then -r else if p.y < -r then h + r else p.y
  { p with x := x2, y := y2 }

/-- `ServerPlayer.increaseAsteroidPoint()`. -/
def ServerPlayer.increaseAsteroidPoint (p : ServerPlayer) : ServerPlayer :=
  { p with asteroidPoints := p.asteroidPoints + 1 }

/-- `ServerPlayer.increaseKillingPoint()`. -/
def ServerPlayer.increaseKillingPoint (p : ServerPlayer) : ServerPlayer :=
  { p with killingPoints := p.killingPoints + 1 }

/-- The movement block of `ServerPlayer.update(width, height)` (heading turn,
boosting force, acceleration, speed clamp, drag, position integration, edge
wraparound; the source method is split here into its movement, firing and
bookkeeping blocks, composed exactly in source order by `ServerPlayer.update`).
Parameters standing for float chains: `boost` models
`boostingForce.addScalar(1).rotateBy(heading + HALF_PI).normalize().multiplyScalar(0.1)`
applied to the current boosting force at the current heading; `clampV` models
`velocity.norm().multiplyScalar(maxSpeed)`, applied only when the velocity
magnitude exceeds `maxSpeed` (the test `magnitude > 8` is expressed exactly on
squares). -/
def ServerPlayer.updateMove (boost : Vec → ℚ → Vec) (clampV : Vec → Vec)
    (w h : ℚ) (p : ServerPlayer) : ServerPlayer :=
  let heading := p.heading + p.rotation
  let bf := if p.isBoosting then boost p.boostingForce heading else (0, 0)
  let acc : Vec := (p.acc.1 + bf.1, p.acc.2 + bf.2)
  let v1 : Vec := (p.vel.1 + acc.1, p.vel.2 + acc.2)
  let v2 := if v1.1 * v1.1 + v1.2 * v1.2 > ServerPlayer.maxSpeed * ServerPlayer.maxSpeed
            then clampV v1 else v1
  let v3 : Vec := (v2.1 * (99/100), v2.2 * (99/100))
  ServerPlayer.checkEdges w h
    { p with heading := heading, boostingForce := bf, acc := (0, 0),
             vel := v3, x := p.x + v3.1, y := p.y + v3.2 }

/-- The firing block of `ServerPlayer.update`: while the firing flag is set,
read `Date.now()`, compute the elapsed time since the last shot, and if it
exceeds the cooldown reset the shot timer and fire a bullet from the ship's
position along its heading in its base color. -/
def ServerPlayer.updateFire (rot : Vec → ℚ → Vec) (now : ℤ) (freshId : ℕ)
    (p : ServerPlayer) (house : BulletHouse) : ServerPlayer × BulletHouse :=
  if p.isFiring then
    let delta := now - p.thenTime
    if delta > ServerPlayer.fireInterval then
      ({ p with nowTime := now, fireDelta := delta, thenTime := now },
       BulletHouse.fireBullet rot freshId p.id p.x p.y p.heading p.origColor house)
    else ({ p with nowTime := now, fireDelta := delta }, house)
  else (p, house)

/-- The tail of `ServerPlayer.update`, composed after the movement and firing
blocks: derive `showTail` from the speed, decrement the invincibility
countdown while positive, and derive the current (blinking) color. -/
def ServerPlayer.update (boost : Vec → ℚ → Vec) (clampV : Vec → Vec)
    (rot : Vec → ℚ → Vec) (blink : RGB) (now : ℤ) (freshId : ℕ) (w h : ℚ)
    (p : ServerPlayer) (house : BulletHouse) : ServerPlayer × BulletHouse :=
  let p2 := ServerPlayer.updateMove boost clampV w h p
  let fired := ServerPlayer.updateFire rot now freshId p2 house
  let p3 := fired.1
  let cd := if p3.invincibleCountdown > 0 then p3.invincibleCountdown - 1
            else p3.invincibleCountdown
  ({ p3 with showTail := decide (p3.vel.1 * p3.vel.1 + p3.vel.2 * p3.vel.2 > 1),
             invincibleCountdown := cd,
             currColor := if cd > 0 then blink else p3.origColor },
   fired.2)

/-- A `CollidingObject`: the closed set of collidable entity types. -/
inductive Collidable where
  | player (p : ServerPlayer)
  | bullet (b : ServerBullet)
  | asteroid (a : ServerAsteroid)
deriving DecidableEq

/-- A `GameEventsHandler` invocation, returned as data. -/
inductive GameEvent where
  | bulletKilledPlayer (firerId : Option ℕ) (bulletId playerId : ℕ)
  | bulletKilledAsteroid (firerId : Option ℕ) (bulletId asteroidId : ℕ)
  | asteroidKilledPlayer (asteroidId playerId : ℕ)
deriving DecidableEq, Repr

/-- The `x` coordinate of a collidable. -/
def Collidable.x : Collidable → ℚ
  | .player p => p.x
  | .bullet b => b.x
  | .asteroid a => a.x

/-- The `y` coordinate of a collidable. -/
def Collidable.y : Collidable → ℚ
  | .player p => p.y
  | .bullet b => b.y
  | .asteroid a => a.y

/-- The `maxCollidingDistance` (collision outer radius) of a collidable. -/
def Collidable.maxDist : Collidable → ℚ
  | .player _ => ServerPlayer.maxCollidingDistance
  | .bullet _ => ServerBullet.size
  | .asteroid a => a.maxCollidingDistance

/-- `ServerPlayer.isCollisionTarget(other)`: a ship's eligible collision
targets are bullets it did not fire itself that are not already flagged for
recycling, and asteroids. -/
def ServerPlayer.isCollisionTarget (p : ServerPlayer) : Collidable → Bool
  | .bullet b => (b.firerId != some p.id) && !b.needsToBeRecycled
  | .asteroid _ => true
  | .player _ => false

/-- `ServerAsteroid.isCollisionTarget(other)`: an asteroid's eligible
collision targets are bullets not already flagged for recycling. -/
def ServerAsteroid.isCollisionTarget (_ : ServerAsteroid) : Collidable → Bool
  | .bullet b => !b.needsToBeRecycled
  | .asteroid _ => false
  | .player _ => false

/-- `ServerBullet.isCollisionTarget(other)`: always `false` (the source's
body is `return false`). -/
def ServerBullet.isCollisionTarget (_ : ServerBullet) : Collidable → Bool :=
  fun _ => false

/-- `ServerPlayer.processCollidedWith(other)`: dispatch the kill event for a
confirmed hit (the source calls the matching `GameEventsHandler` method). -/
def ServerPlayer.processCollidedWith (p : ServerPlayer) : Collidable → List GameEvent
  | .bullet b => [.bulletKilledPlayer b.firerId b.id p.id]
  | .asteroid a => [.asteroidKilledPlayer a.id p.id]
  | .player _ => []

/-- `ServerAsteroid.processCollidedWith(other)`. -/
def ServerAsteroid.processCollidedWith (a : ServerAsteroid) : Collidable → List GameEvent
  | .bullet b => [.bulletKilledAsteroid b.firerId b.id a.id]
  | .asteroid _ => []
  | .player _ => []

/-- Modelled from the spec: `Utils.checkCollidedWith(self, othersArray)` lives
in `src/shared/Utils`, which is not part of the repository snapshot.  Per the
spec's collision protocol, for each other entity the eligibility predicate is
consulted and a broad-phase circle test is run: the two entities collide when
the distance between their centers is less than the sum of their collision
outer radii (stated here equivalently on squares, to stay in exact
arithmetic); on a hit the self entity's resolution runs.  The resolutions are
returned in scan order. -/
def specCheckCollidedWith (isTarget : Collidable → Bool)
    (resolve : Collidable → List GameEvent) (x y maxD : ℚ)
    (others : List Collidable) : List GameEvent :=
  (others.filter (fun o =>
      isTarget o &&
        decide ((Collidable.x o - x) ^ 2 + (Collidable.y o - y) ^ 2
          < (maxD + Collidable.maxDist o) ^ 2))).flatMap resolve

/-- `ServerPlayer.checkCollidedWith(...othersArray)`: an invincible ship
returns immediately, before any eligibility or distance test; otherwise the
broad-phase scan runs over all supplied arrays. -/
def ServerPlayer.checkCollidedWith (p : ServerPlayer)
    (othersArray : List (List Collidable)) : List GameEvent :=
  if p.isInvincible then []
  else specCheckCollidedWith p.isCollisionTarget p.processCollidedWith
    p.x p.y ServerPlayer.maxCollidingDistance othersArray.flatten

/-- `ServerAsteroid.checkCollidedWith(...othersArray)`. -/
def ServerAsteroid.checkCollidedWith (a : ServerAsteroid)
    (othersArray : List (List Collidable)) : List GameEvent :=
  specCheckCollidedWith a.isCollisionTarget a.processCollidedWith
    a.x a.y a.maxCollidingDistance othersArray.flatten

/-- `ServerBullet.checkCollidedWith(...)`: the source's body is empty — a
bullet never initiates a collision check, so no resolution ever results. -/
def ServerBullet.checkCollidedWith (_ : ServerBullet)
    (_ : List (List Collidable)) : List GameEvent := []

/-- State of `ServerGameData`.  `players` models the insertion-ordered
`Map<string, ServerPlayer>`; `curBigAsteroidsCount` is the big-asteroid
counter.  `width` and `height` are fixed to 4000 at construction.  The
`gameEventsHandler` reference and the derived `dtoObject` are omitted. -/
structure ServerGameData where
  width : ℚ
  height : ℚ
  players : List ServerPlayer
  bulletHouse : BulletHouse
  asteroids : List ServerAsteroid
  curBigAsteroidsCount : ℤ
deriving DecidableEq

/-- `minBigAsteroidCount = 7`. -/
def ServerGameData.minBigAsteroidCount : ℤ := 7

/-- `bigAsteroidCountMultiplesOfPlayer = 3`. -/
def ServerGameData.bigAsteroidCountMultiplesOfPlayer : ℤ := 3

/-- The `ServerGameData` constructor: a 4000×4000 world with no players, an
empty pool, and `minBigAsteroidCount` initial big asteroids (ids and random
draws supplied per index). -/
def ServerGameData.mk0 (astId : ℕ → ℕ) (astRand : ℕ → AstRand) : ServerGameData :=
  { width := 4000, height := 4000, players := [], bulletHouse := BulletHouse.empty,
    asteroids := (List.range 7).map (fun k => ServerAsteroid.mk0 (astId k) true (astRand k)),
    curBigAsteroidsCount := 7 }

/-- `ServerGameData.addPlayer(id, name, color)`: a new ship at the world
center (replacing any ship already stored under this id, per `Map.set`).
`heading0`/`then0` are the constructor's `HALF_PI` and `Date.now()` values. -/
def ServerGameData.addPlayer (g : ServerGameData) (id : ℕ) (name : String)
    (color : RGB) (heading0 : ℚ) (then0 : ℤ) : ServerGameData :=
  let p := ServerPlayer.mk0 id name color (g.width / 2) (g.height / 2) heading0 then0
  if g.players.any (fun q => q.id == id) then
    { g with players := g.players.map (fun q => if q.id == id then p else q) }
  else { g with players := g.players ++ [p] }

/-- `ServerGameData.removePlayerById(id)`: remove and return the ship stored
under this id, or return `null` and leave the state unchanged. -/
def ServerGameData.removePlayerById (g : ServerGameData) (id : ℕ) :
    Option ServerPlayer × ServerGameData :=
  match extractFirst (fun p => p.id == id) g.players with
  | (none, _) => (none, g)
  | (some p, rest) => (some p, { g with players := rest })

/-- `ServerGameData.getPlayerWithId(id)`. -/
def ServerGameData.getPlayerWithId (g : ServerGameData) (id : ℕ) :
    Option ServerPlayer :=
  g.players.find? (fun p => p.id == id)

/-- `ServerGameData.breakAsteroid(asteroid)`: remove the asteroid with the
given id (first match, by identity of the uuid); if it was big, push three
small pieces created from it (ids and random draws per piece index) and
decrement the big-asteroid counter; if it was small, just remove it. -/
def ServerGameData.breakAsteroid (g : ServerGameData) (aid : ℕ)
    (pieceId : ℕ → ℕ) (pieceRand : ℕ → AstRand) : ServerGameData :=
  match extractFirst (fun v => v.id == aid) g.asteroids with
  | (none, _) => g
  | (some removed, rest) =>
      if removed.isBig then
        { g with
            asteroids := rest ++
              [ServerAsteroid.createPieceOf (pieceId 0) (pieceRand 0) removed,
               ServerAsteroid.createPieceOf (pieceId 1) (pieceRand 1) removed,
               ServerAsteroid.createPieceOf (pieceId 2) (pieceRand 2) removed],
            curBigAsteroidsCount := g.curBigAsteroidsCount - 1 }
      else { g with asteroids := rest }

/-- A session-visible notification emitted by the `Server` handlers through
`ServerSocketEventsHelper` (the transport layer). -/
inductive ServerNotification where
  | killedByAsteroid (killedId : ℕ)
  | killedByPlayer (firerId killedId : ℕ)
deriving DecidableEq, Repr

/-- `Server.bulletKilledPlayer(bullet, player)` from `Server.ts`: if the
bullet's firer id is non-null and that player is found, the victim is removed,
all bullets the victim fired are recycled, the victim's session (if still
connected, per the `connectedSockets` id list) is notified, and the firer's
killing score is incremented; in every case the hitting bullet itself is
recycled at the end.  `bfirer`/`bid` are the hitting bullet's `firerId` and
`id`, `pid` the victim's id. -/
def Server.bulletKilledPlayer (sockets : List ℕ) (bfirer : Option ℕ)
    (bid pid : ℕ) (g : ServerGameData) : ServerGameData × List ServerNotification :=
  let skip : ServerGameData × List ServerNotification :=
    ({ g with bulletHouse := BulletHouse.recycleBulletById bid g.bulletHouse }, [])
  match bfirer with
  | none => skip
  | some fid =>
    match g.getPlayerWithId fid with
    | none => skip
    | some _ =>
      match extractFirst (fun p => p.id == pid) g.players with
      | (none, _) => skip
      | (some killed, rest) =>
        let house1 := BulletHouse.recycleBulletsByFirerId killed.id g.bulletHouse
        ({ g with
             players := rest.map (fun q => if q.id == fid then q.increaseKillingPoint else q),
             bulletHouse := BulletHouse.recycleBulletById bid house1 },
         if sockets.contains killed.id then [ServerNotification.killedByPlayer fid killed.id]
         else [])

/-- `Server.bulletKilledAsteroid(bullet, asteroid)` from `Server.ts`: if the
bullet's firer id is non-null and that player is found, the asteroid is broken
and the firer's asteroid score is incremented; in every case the hitting
bullet is recycled at the end. -/
def Server.bulletKilledAsteroid (pieceId : ℕ → ℕ) (pieceRand : ℕ → AstRand)
    (bfirer : Option ℕ) (bid aid : ℕ) (g : ServerGameData) : ServerGameData :=
  let g1 :=
    match bfirer with
    | none => g
    | some fid =>
      match g.getPlayerWithId fid with
      | none => g
      | some _ =>
        let gb := g.breakAsteroid aid pieceId pieceRand
        { gb with
            players := gb.players.map (fun q : ServerPlayer => if q.id == fid then q.increaseAsteroidPoint else q) }
  { g1 with bulletHouse := BulletHouse.recycleBulletById bid g1.bulletHouse }

/-- `Server.asteroidKilledPlayer(asteroid, player)` from `Server.ts`: the
victim is removed if present (recycling all its bullets and notifying its
session if connected), and the asteroid is broken unconditionally. -/
def Server.asteroidKilledPlayer (sockets : List ℕ) (pieceId : ℕ → ℕ)
    (pieceRand : ℕ → AstRand) (aid pid : ℕ) (g : ServerGameData) :
    ServerGameData × List ServerNotification :=
  let step :=
    match extractFirst (fun p => p.id == pid) g.players with
    | (none, _) => (g, ([] : List ServerNotification))
    | (some killed, rest) =>
        ({ g with players := rest,
                  bulletHouse := BulletHouse.recycleBulletsByFirerId killed.id g.bulletHouse },
         if sockets.contains killed.id then [ServerNotification.killedByAsteroid killed.id]
         else [])
  ((step.1).breakAsteroid aid pieceId pieceRand, step.2)

/-- The environment of one tick of `ServerGameData.update`: all float chains,
random draws, timestamps and fresh uuids consumed during the tick, plus the
list of collision resolutions the collision pass produces.  The collision
pass itself iterates the live entity arrays through the broad-phase test of
`Utils.checkCollidedWith` (absent from the repository snapshot, see
`specCheckCollidedWith`) while its own handler callbacks mutate those arrays,
so the tick is verified for an arbitrary sequence of handler invocations. -/
structure Oracle where
  boost : Vec → ℚ → Vec
  clampV : Vec → Vec
  rot : Vec → ℚ → Vec
  blink : ℕ → RGB
  now : ℕ → ℤ
  bulletId : ℕ → ℕ
  retarget : ℕ → ℚ × Vec
  events : List GameEvent
  pieceId : ℕ → ℕ → ℕ
  pieceRand : ℕ → ℕ → AstRand
  spawnId : ℕ → ℕ
  spawnRand : ℕ → AstRand

/-- Phase 1 of a tick: `players.forEach(player => player.update(w, h))`,
threading the bullet pool through the ships' firing in map order.  Per-ship
draws are keyed by the ship's id. -/
def playersPhase (o : Oracle) (w h : ℚ) :
    List ServerPlayer → BulletHouse → List ServerPlayer × BulletHouse
  | [], house => ([], house)
  | p :: rest, house =>
      let r1 := ServerPlayer.update o.boost o.clampV o.rot (o.blink p.id)
        (o.now p.id) (o.bulletId p.id) w h p house
      let r2 := playersPhase o w h rest r1.2
      (r1.1 :: r2.1, r2.2)

/-- Phase 3 of a tick: advance every asteroid; a big asteroid that needs a
new target is retargeted (random speed and velocity keyed by its id, standing
for `setTarget` towards a random living ship or a random world point), a
small one is spliced out of the list. -/
def asteroidPhase (o : Oracle) (w h : ℚ) :
    List ServerAsteroid → List ServerAsteroid
  | [] => []
  | a :: rest =>
      let a1 := a.update w h
      if a1.needNewTarget then
        if a1.isBig then
          (a1.setTarget (o.retarget a1.id).1 (o.retarget a1.id).2) :: asteroidPhase o w h rest
        else asteroidPhase o w h rest
      else a1 :: asteroidPhase o w h rest

/-- Apply one collision resolution (a `GameEventsHandler` call into
`Server.ts`) to the game state, discarding the session notification. -/
def applyGameEvent (sockets : List ℕ) (o : Oracle) (g : ServerGameData) :
    GameEvent → ServerGameData
  | .bulletKilledPlayer f bid pid => (Server.bulletKilledPlayer sockets f bid pid g).1
  | .bulletKilledAsteroid f bid aid =>
      Server.bulletKilledAsteroid (o.pieceId aid) (o.pieceRand aid) f bid aid g
  | .asteroidKilledPlayer aid pid =>
      (Server.asteroidKilledPlayer sockets (o.pieceId aid) (o.pieceRand aid) aid pid g).1

/-- Phases 1–4 of `ServerGameData.update`: ship physics and firing, pool
update, asteroid advance/retarget/discard, then the collision pass's handler
invocations. -/
def ServerGameData.afterCollisions (g : ServerGameData) (o : Oracle)
    (sockets : List ℕ) : ServerGameData :=
  let pr := playersPhase o g.width g.height g.players g.bulletHouse
  let house2 := BulletHouse.update g.width g.height pr.2
  let asts := asteroidPhase o g.width g.height g.asteroids
  o.events.foldl (applyGameEvent sockets o)
    { g with players := pr.1, bulletHouse := house2, asteroids := asts }

/-- The population floor `max(minBigAsteroidCount, players.size × 3)`. -/
def ServerGameData.neededBigCount (g : ServerGameData) : ℤ :=
  max ServerGameData.minBigAsteroidCount
    (ServerGameData.bigAsteroidCountMultiplesOfPlayer * (g.players.length : ℤ))

/-- Phase 5 of `ServerGameData.update`: if the big-asteroid counter is below
the floor, push exactly the shortfall of fresh big asteroids, incrementing the
counter for each. -/
def ServerGameData.topUp (g : ServerGameData) (o : Oracle) : ServerGameData :=
  if g.curBigAsteroidsCount < g.neededBigCount then
    let count := (g.neededBigCount - g.curBigAsteroidsCount).toNat
    { g with
        asteroids := g.asteroids ++
          (List.range count).map (fun k => ServerAsteroid.mk0 (o.spawnId k) true (o.spawnRand k)),
        curBigAsteroidsCount := g.curBigAsteroidsCount + count }
  else g

/-- One complete tick of `ServerGameData.update` (the final `dtoObject`
rebuild, pure serialization, is omitted). -/
def ServerGameData.update (g : ServerGameData) (o : Oracle) (sockets : List ℕ) :
    ServerGameData :=
  (g.afterCollisions o sockets).topUp o

/-- The number of big asteroids in a list. -/
def bigCount (l : List ServerAsteroid) : ℕ :=
  (l.filter (fun a => a.isBig)).length

/-- The counter invariant: `curBigAsteroidsCount` equals the true number of
big asteroids in the world. -/
def ServerGameData.counterInv (g : ServerGameData) : Prop :=
  g.curBigAsteroidsCount = (bigCount g.asteroids : ℤ)

/-- The reachable states of `ServerGameData`: the constructor, closed under
every mutating entry point of the core (a tick, session login/disconnect,
input application, and each `GameEventsHandler` reaction with its world-state
side effects). -/
inductive ServerGameData.Reachable : ServerGameData → Prop where
  | init (astId : ℕ → ℕ) (astRand : ℕ → AstRand) :
      ServerGameData.Reachable (ServerGameData.mk0 astId astRand)
  | update {g : ServerGameData} (o : Oracle) (sockets : List ℕ) :
      ServerGameData.Reachable g → ServerGameData.Reachable (g.update o sockets)
  | addPlayer {g : ServerGameData} (id : ℕ) (name : String) (color : RGB)
      (heading0 : ℚ) (then0 : ℤ) :
      ServerGameData.Reachable g →
      ServerGameData.Reachable (g.addPlayer id name color heading0 then0)
  | removePlayer {g : ServerGameData} (id : ℕ) :
      ServerGameData.Reachable g → ServerGameData.Reachable (g.removePlayerById id).2
  | breakAsteroid {g : ServerGameData} (aid : ℕ) (pieceId : ℕ → ℕ)
      (pieceRand : ℕ → AstRand) :
      ServerGameData.Reachable g →
      ServerGameData.Reachable (g.breakAsteroid aid pieceId pieceRand)
  | recycleById {g : ServerGameData} (bid : ℕ) :
      ServerGameData.Reachable g →
      ServerGameData.Reachable
        { g with bulletHouse := BulletHouse.recycleBulletById bid g.bulletHouse }
  | recycleByFirer {g : ServerGameData} (fid : ℕ) :
      ServerGameData.Reachable g →
      ServerGameData.Reachable
        { g with bulletHouse := BulletHouse.recycleBulletsByFirerId fid g.bulletHouse }
  | applyInput {g : ServerGameData} (id : ℕ) (input : PlayerInput) :
      ServerGameData.Reachable g →
      ServerGameData.Reachable
        { g with players := g.players.map (fun p => if p.id == id then p.applyInput input else p) }
  | event {g : ServerGameData} (sockets : List ℕ) (o : Oracle) (e : GameEvent) :
      ServerGameData.Reachable g →
      ServerGameData.Reachable (applyGameEvent sockets o g e)

@[simp] theorem ServerBullet.id_update (w h : ℚ) (b : ServerBullet) :
    (b.update w h).id = b.id := rfl

@[simp] theorem ServerBullet.id_prepareRecycle (b : ServerBullet) :
    b.prepareRecycle.id = b.id := rfl

@[simp] theorem ServerBullet.id_setInitValues (rot : Vec → ℚ → Vec)
    (b : ServerBullet) (f : ℕ) (x y hd : ℚ) (c : RGB) :
    (b.setInitValues rot f x y hd c).id = b.id := rfl

theorem ServerBullet.prepareRecycle_isReset (b : ServerBullet) :
    b.prepareRecycle.isReset :=
  ⟨rfl, rfl, rfl, rfl, rfl, rfl⟩

/-- Closed form of the recycle pass of `BulletHouse.update`. -/
theorem BulletHouse.updateStep_eq (w h : ℚ) (l : List ServerBullet) :
    BulletHouse.updateStep w h l =
      ((l.map (ServerBullet.update w h)).filter (fun b => !b.needsToBeRecycled),
       ((l.map (ServerBullet.update w h)).filter (fun b => b.needsToBeRecycled)).reverse.map
         ServerBullet.prepareRecycle) := by
  induction l with
  | nil => rfl
  | cons b rest ih =>
      by_cases hb : (b.update w h).needsToBeRecycled <;>
        simp [BulletHouse.updateStep, ih, hb, List.filter_cons]

/-- Closed form of the loop of `recycleBulletsByFirerId`. -/
theorem BulletHouse.recycleByFirerStep_eq (fid : ℕ) (l : List ServerBullet) :
    BulletHouse.recycleByFirerStep fid l =
      (l.filter (fun b => !(b.firerId == some fid)),
       (l.filter (fun b => b.firerId == some fid)).reverse.map
         ServerBullet.prepareRecycle) := by
  induction l with
  | nil => rfl
  | cons b rest ih =>
      by_cases hb : b.firerId == some fid <;>
        simp [BulletHouse.recycleByFirerStep, ih, hb, List.filter_cons]

theorem extractFirst_perm {p : α → Bool} :
    ∀ {l rest : List α} {a : α}, extractFirst p l = (some a, rest) →
      l.Perm (a :: rest)
  | [], _, _, h => by simp [extractFirst] at h
  | b :: tl, rest, a, h => by
      by_cases hb : p b
      · simp only [extractFirst, hb, if_pos] at h
        obtain ⟨h1, h2⟩ := Prod.mk.injEq .. ▸ h
        cases Option.some.inj h1
        exact h2 ▸ List.Perm.refl _
      · simp only [extractFirst, hb, if_neg, Bool.false_eq_true, not_false_iff] at h
        obtain ⟨h1, h2⟩ := Prod.mk.injEq .. ▸ h
        have htl : extractFirst p tl = (some a, (extractFirst p tl).2) := by
          rw [← h1]
        have hp := extractFirst_perm htl
        rw [← h2]
        exact (List.Perm.cons b hp).trans (List.Perm.swap a b _)

theorem extractFirst_sat {p : α → Bool} :
    ∀ {l rest : List α} {a : α}, extractFirst p l = (some a, rest) → p a = true
  | [], _, _, h => by simp [extractFirst] at h
  | b :: tl, rest, a, h => by
      by_cases hb : p b
      · simp only [extractFirst, hb, if_pos] at h
        obtain ⟨h1, _⟩ := Prod.mk.injEq .. ▸ h
        cases Option.some.inj h1
        exact hb
      · simp only [extractFirst, hb, if_neg, Bool.false_eq_true, not_false_iff] at h
        obtain ⟨h1, _⟩ := Prod.mk.injEq .. ▸ h
        have htl : extractFirst p tl = (some a, (extractFirst p tl).2) := by
          rw [← h1]
        exact extractFirst_sat htl

theorem extractFirst_none {p : α → Bool} :
    ∀ {l rest : List α}, extractFirst p l = (none, rest) → rest = l
  | [], rest, h => by simp [extractFirst] at h; rw [h]
  | b :: tl, rest, h => by
      by_cases hb : p b
      · simp [extractFirst, hb] at h
      · simp only [extractFirst, hb, if_neg, Bool.false_eq_true, not_false_iff] at h
        obtain ⟨h1, h2⟩ := Prod.mk.injEq .. ▸ h
        have htl : extractFirst p tl = (none, (extractFirst p tl).2) := by
          rw [← h1]
        rw [← h2, extractFirst_none htl]

/-- Moving the `q`-satisfying bullets of a snapshot `M` of the active list
onto the end of the recycled list (reset, in reverse order) preserves the
multiset of instance ids. -/
theorem pool_move_ids_perm (M bullets oldrec : List ServerBullet)
    (q : ServerBullet → Bool)
    (hM : M.map (fun b => b.id) = bullets.map (fun b => b.id)) :
    ((M.filter (fun b => !q b) ++
        (oldrec ++ (M.filter q).reverse.map ServerBullet.prepareRecycle)).map
      (fun b => b.id)).Perm ((bullets ++ oldrec).map (fun b => b.id)) := by
  have hR : ((M.filter q).reverse.map ServerBullet.prepareRecycle).map (fun b => b.id)
      = ((M.filter q).map (fun b => b.id)).reverse := by
    rw [List.map_map, List.map_reverse]
    rfl
  rw [List.map_append, List.map_append, hR, List.map_append]
  have s1 : List.Perm
      ((M.filter (fun b => !q b)).map (fun b => b.id) ++
        (oldrec.map (fun b => b.id) ++ ((M.filter q).map (fun b => b.id)).reverse))
      ((M.filter (fun b => !q b)).map (fun b => b.id) ++
        (((M.filter q).map (fun b => b.id)).reverse ++ oldrec.map (fun b => b.id))) :=
    List.Perm.append_left _ List.perm_append_comm
  have s2 : List.Perm
      (((M.filter (fun b => !q b)).map (fun b => b.id) ++
        ((M.filter q).map (fun b => b.id)).reverse) ++ oldrec.map (fun b => b.id))
      (((M.filter (fun b => !q b)).map (fun b => b.id) ++
        (M.filter q).map (fun b => b.id)) ++ oldrec.map (fun b => b.id)) :=
    List.Perm.append_right _ (List.Perm.append_left _ (List.reverse_perm _))
  have s3 : List.Perm
      (((M.filter (fun b => !q b) ++ M.filter q).map (fun b => b.id)) ++
        oldrec.map (fun b => b.id))
      (M.map (fun b => b.id) ++ oldrec.map (fun b => b.id)) :=
    List.Perm.append_right _
      (List.Perm.map _ (List.perm_append_comm.trans (List.filter_append_perm q M)))
  refine s1.trans ?_
  rw [← List.append_assoc]
  refine s2.trans ?_
  rw [← List.map_append]
  refine s3.trans ?_
  rw [hM]

theorem BulletHouse.update_allIds (w h : ℚ) (house : BulletHouse) :
    (BulletHouse.update w h house).allIds = house.allIds := by
  unfold BulletHouse.update BulletHouse.allIds
  rw [BulletHouse.updateStep_eq]
  exact Multiset.coe_eq_coe.mpr
    (pool_move_ids_perm (house.bullets.map (ServerBullet.update w h)) house.bullets
      house.recycledBullets (fun b => b.needsToBeRecycled)
      (by rw [List.map_map]; rfl))

theorem BulletHouse.update_WF (w h : ℚ) (house : BulletHouse) (hWF : house.WF) :
    (BulletHouse.update w h house).WF := by
  obtain ⟨hnd, hrs⟩ := hWF
  refine ⟨by rw [BulletHouse.update_allIds]; exact hnd, ?_⟩
  intro b hb
  have hre : (BulletHouse.update w h house).recycledBullets
      = house.recycledBullets ++
        ((house.bullets.map (ServerBullet.update w h)).filter
          (fun b => b.needsToBeRecycled)).reverse.map ServerBullet.prepareRecycle := by
    unfold BulletHouse.update
    rw [BulletHouse.updateStep_eq]
  rw [hre, List.mem_append] at hb
  rcases hb with hb | hb
  · exact hrs b hb
  · obtain ⟨c, _, rfl⟩ := List.mem_map.mp hb
    exact ServerBullet.prepareRecycle_isReset c

theorem BulletHouse.recycleByFirer_allIds (fid : ℕ) (house : BulletHouse) :
    (BulletHouse.recycleBulletsByFirerId fid house).allIds = house.allIds := by
  unfold BulletHouse.recycleBulletsByFirerId BulletHouse.allIds
  rw [BulletHouse.recycleByFirerStep_eq]
  exact Multiset.coe_eq_coe.mpr
    (pool_move_ids_perm house.bullets house.bullets house.recycledBullets
      (fun b => b.firerId == some fid) rfl)

theorem BulletHouse.recycleByFirer_WF (fid : ℕ) (house : BulletHouse)
    (hWF : house.WF) : (BulletHouse.recycleBulletsByFirerId fid house).WF := by
  obtain ⟨hnd, hrs⟩ := hWF
  refine ⟨by rw [BulletHouse.recycleByFirer_allIds]; exact hnd, ?_⟩
  intro b hb
  have hre : (BulletHouse.recycleBulletsByFirerId fid house).recycledBullets
      = house.recycledBullets ++
        (house.bullets.filter (fun b => b.firerId == some fid)).reverse.map
          ServerBullet.prepareRecycle := by
    unfold BulletHouse.recycleBulletsByFirerId
    rw [BulletHouse.recycleByFirerStep_eq]
  rw [hre, List.mem_append] at hb
  rcases hb with hb | hb
  · exact hrs b hb
  · obtain ⟨c, _, rfl⟩ := List.mem_map.mp hb
    exact ServerBullet.prepareRecycle_isReset c

theorem BulletHouse.recycleById_allIds (bid : ℕ) (house : BulletHouse) :
    (BulletHouse.recycleBulletById bid house).allIds = house.allIds := by
  unfold BulletHouse.recycleBulletById
  rcases hex : extractFirst (fun b => b.id == bid) house.bullets with ⟨ob, rest⟩
  rw [hex]
  cases ob with
  | none => rfl
  | some b =>
      unfold BulletHouse.allIds
      apply Multiset.coe_eq_coe.mpr
      have h1 : List.Perm (rest ++ (house.recycledBullets ++ [b.prepareRecycle]))
          (b.prepareRecycle :: (rest ++ house.recycledBullets)) := by
        have h2 : List.Perm (house.recycledBullets ++ [b.prepareRecycle])
            (b.prepareRecycle :: house.recycledBullets) :=
          List.perm_append_singleton _ _
        exact (List.Perm.append_left rest h2).trans List.perm_middle
      have h3 : List.Perm (house.bullets ++ house.recycledBullets)
          (b :: (rest ++ house.recycledBullets)) := by
        have := extractFirst_perm hex
        exact (List.Perm.append_right house.recycledBullets this).trans (List.Perm.refl _)
      have h4 := (h1.map (fun b => b.id)).trans ((h3.map (fun b => b.id)).symm)
      simpa using h4

theorem BulletHouse.recycleById_WF (bid : ℕ) (house : BulletHouse)
    (hWF : house.WF) : (BulletHouse.recycleBulletById bid house).WF := by
  obtain ⟨hnd, hrs⟩ := hWF
  refine ⟨by rw [BulletHouse.recycleById_allIds]; exact hnd, ?_⟩
  intro b hb
  unfold BulletHouse.recycleBulletById at hb
  rcases hex : extractFirst (fun c => c.id == bid) house.bullets with ⟨ob, rest⟩
  rw [hex] at hb
  cases ob with
  | none => exact hrs b hb
  | some c =>
      simp only [List.mem_append] at hb
      rcases hb with hb | hb
      · exact hrs b hb
      · rw [List.mem_singleton.mp hb]
        exact ServerBullet.prepareRecycle_isReset c

theorem BulletHouse.fireBullet_allIds (rot : Vec → ℚ → Vec) (freshId firerId : ℕ)
    (x y hd : ℚ) (c : RGB) (house : BulletHouse) :
    (BulletHouse.fireBullet rot freshId firerId x y hd c house).allIds =
      if house.recycledBullets.isEmpty then freshId ::ₘ house.allIds
      else house.allIds := by
  unfold BulletHouse.fireBullet BulletHouse.createOrGetBullet
  cases hl : house.recycledBullets.getLast? with
  | none =>
      have hnil : house.recycledBullets = [] := List.getLast?_eq_none_iff.mp hl
      rw [hnil]
      unfold BulletHouse.allIds
      rw [hnil]
      simp only [List.isEmpty_nil, if_true, List.append_nil]
      rw [List.map_append]
      apply Multiset.coe_eq_coe.mpr
      have : ([(ServerBullet.mk0 freshId).setInitValues rot firerId x y hd c].map
          (fun b => b.id)) = [freshId] := rfl
      rw [this]
      exact List.perm_append_singleton freshId _
  | some b =>
      have hne : house.recycledBullets ≠ [] := by
        intro hnil
        rw [hnil] at hl
        exact Option.noConfusion hl
      have hgl := List.getLast?_eq_getLast_of_ne_nil hne
      rw [hl] at hgl
      cases Option.some.inj hgl
      have hie : house.recycledBullets.isEmpty = false := by
        cases hrb : house.recycledBullets with
        | nil => exact absurd hrb hne
        | cons d l => rfl
      rw [hie]
      simp only [Bool.false_eq_true, if_false]
      unfold BulletHouse.allIds
      apply Multiset.coe_eq_coe.mpr
      rw [List.map_append, List.map_append, List.map_append]
      have hsb : ([(house.recycledBullets.getLast hne).setInitValues rot firerId x y hd c].map
          (fun b => b.id)) = [(house.recycledBullets.getLast hne).id] := rfl
      rw [hsb]
      have h1 : List.Perm
          ((house.bullets.map (fun b => b.id) ++ [(house.recycledBullets.getLast hne).id]) ++
            house.recycledBullets.dropLast.map (fun b => b.id))
          (house.bullets.map (fun b => b.id) ++
            (house.recycledBullets.dropLast.map (fun b => b.id) ++
              [(house.recycledBullets.getLast hne).id])) := by
        rw [List.append_assoc]
        exact List.Perm.append_left _ List.perm_append_comm
      refine h1.trans ?_
      have h2 : house.recycledBullets.dropLast.map (fun b => b.id) ++
          [(house.recycledBullets.getLast hne).id] =
          house.recycledBullets.map (fun b => b.id) := by
        have := List.dropLast_append_getLast hne
        calc house.recycledBullets.dropLast.map (fun b => b.id) ++
              [(house.recycledBullets.getLast hne).id]
            = (house.recycledBullets.dropLast ++
                [house.recycledBullets.getLast hne]).map (fun b => b.id) := by
              rw [List.map_append]
              rfl
          _ = house.recycledBullets.map (fun b => b.id) := by rw [this]
      rw [h2]

theorem BulletHouse.fireBullet_WF (rot : Vec → ℚ → Vec) (freshId firerId : ℕ)
    (x y hd : ℚ) (c : RGB) (house : BulletHouse)
    (hWF : house.WF) (hfresh : freshId ∉ house.allIds) :
    (BulletHouse.fireBullet rot freshId firerId x y hd c house).WF := by
  obtain ⟨hnd, hrs⟩ := hWF
  constructor
  · rw [BulletHouse.fireBullet_allIds]
    by_cases he : house.recycledBullets.isEmpty
    · rw [he, if_pos rfl]
      exact Multiset.nodup_cons.mpr ⟨hfresh, hnd⟩
    · rw [if_neg he]
      exact hnd
  · intro b hb
    unfold BulletHouse.fireBullet BulletHouse.createOrGetBullet at hb
    cases hl : house.recycledBullets.getLast? with
    | none =>
        rw [hl] at hb
        exact hrs b hb
    | some d =>
        rw [hl] at hb
        exact hrs b ((List.dropLast_sublist house.recycledBullets).subset hb)

/-- C2: at every point between operations of the projectile pool
(`BulletHouse`), every projectile instance ever handed out belongs to exactly
one of the active list and the recycled list — formalized as: the multiset of
instance ids across the two lists has no duplicates, and every pool operation
(`update`, `recycleBulletById`, `recycleBulletsByFirerId`, `fireBullet`)
preserves it exactly (`fireBullet` adding only the freshly allocated instance
when the recycled list is empty), so no instance is ever lost or duplicated —
and every projectile placed on the recycled list has been reset first: firer
id cleared to `null`, position moved to the `(-1000, -1000)` sentinel,
velocity zeroed, recycle flag cleared. -/
theorem c2_pool_exactly_one (w h : ℚ) (rot : Vec → ℚ → Vec) (house : BulletHouse)
    (bid fid freshId firerId : ℕ) (x y hd : ℚ) (c : RGB)
    (hWF : house.WF) (hfresh : freshId ∉ house.allIds) :
    ((BulletHouse.update w h house).WF ∧
      (BulletHouse.update w h house).allIds = house.allIds) ∧
    ((BulletHouse.recycleBulletById bid house).WF ∧
      (BulletHouse.recycleBulletById bid house).allIds = house.allIds) ∧
    ((BulletHouse.recycleBulletsByFirerId fid house).WF ∧
      (BulletHouse.recycleBulletsByFirerId fid house).allIds = house.allIds) ∧
    ((BulletHouse.fireBullet rot freshId firerId x y hd c house).WF ∧
      (BulletHouse.fireBullet rot freshId firerId x y hd c house).allIds =
        if house.recycledBullets.isEmpty then freshId ::ₘ house.allIds
        else house.allIds) :=
  ⟨⟨BulletHouse.update_WF w h house hWF, BulletHouse.update_allIds w h house⟩,
   ⟨BulletHouse.recycleById_WF bid house hWF, BulletHouse.recycleById_allIds bid house⟩,
   ⟨BulletHouse.recycleByFirer_WF fid house hWF, BulletHouse.recycleByFirer_allIds fid house⟩,
   ⟨BulletHouse.fireBullet_WF rot freshId firerId x y hd c house hWF hfresh,
    BulletHouse.fireBullet_allIds rot freshId firerId x y hd c house⟩⟩

/-- The recycled list produced by one `BulletHouse.update` pass. -/
theorem BulletHouse.update_recycled_eq (w h : ℚ) (house : BulletHouse) :
    (BulletHouse.update w h house).recycledBullets
      = house.recycledBullets ++
        ((house.bullets.map (ServerBullet.update w h)).filter
          (fun b => b.needsToBeRecycled)).reverse.map ServerBullet.prepareRecycle := by
  unfold BulletHouse.update
  rw [BulletHouse.updateStep_eq]

/-- The active list produced by one `BulletHouse.update` pass. -/
theorem BulletHouse.update_bullets_eq (w h : ℚ) (house : BulletHouse) :
    (BulletHouse.update w h house).bullets
      = (house.bullets.map (ServerBullet.update w h)).filter
          (fun b => !b.needsToBeRecycled) := by
  unfold BulletHouse.update
  rw [BulletHouse.updateStep_eq]

/-- C7: a projectile's recycle flag becomes true on the first tick update
after which its position leaves `[0,width] × [0,height]`; once set it stays
set through further movement and is cleared only by the pool's reset; and in
the same pool update that observes the flag, the projectile is removed from
the active list and pushed reset onto the recycled list, so (the pool being
well-formed) its id is absent from the active set on the following tick. -/
theorem c7_projectile_lifecycle (w h : ℚ) (house : BulletHouse)
    (hWF : house.WF) :
    (∀ b : ServerBullet, b.needsToBeRecycled = false →
      ((b.update w h).needsToBeRecycled = true ↔
        ¬(0 ≤ b.x + b.vel.1 ∧ b.x + b.vel.1 ≤ w ∧
          0 ≤ b.y + b.vel.2 ∧ b.y + b.vel.2 ≤ h))) ∧
    (∀ b : ServerBullet,
      (b.update w h).x = b.x + b.vel.1 ∧ (b.update w h).y = b.y + b.vel.2) ∧
    (∀ b : ServerBullet, b.needsToBeRecycled = true →
      (b.update w h).needsToBeRecycled = true) ∧
    (∀ b : ServerBullet, b.prepareRecycle.needsToBeRecycled = false) ∧
    ((BulletHouse.update w h house).bullets =
      (house.bullets.map (ServerBullet.update w h)).filter
        (fun b => !b.needsToBeRecycled)) ∧
    (∀ b2 ∈ (BulletHouse.update w h house).bullets,
      b2.needsToBeRecycled = false) ∧
    (∀ b ∈ house.bullets, (b.update w h).needsToBeRecycled = true →
      (b.update w h).prepareRecycle ∈ (BulletHouse.update w h house).recycledBullets ∧
        b.id ∉ (BulletHouse.update w h house).bullets.map (fun c => c.id)) := by
  refine ⟨?_, ?_, ?_, ?_, BulletHouse.update_bullets_eq w h house, ?_, ?_⟩
  · intro b hb
    simp only [ServerBullet.update, hb, Bool.false_eq_true, if_false]
    rw [not_and_or, not_and_or, not_and_or]
    simp [not_le]
    tauto
  · intro b
    exact ⟨rfl, rfl⟩
  · intro b hb
    simp [ServerBullet.update, hb]
  · intro b
    rfl
  · intro b2 hb2
    rw [BulletHouse.update_bullets_eq] at hb2
    have := (List.mem_filter.mp hb2).2
    simpa using this
  · intro b hb hflag
    constructor
    · rw [BulletHouse.update_recycled_eq]
      refine List.mem_append.mpr (Or.inr ?_)
      refine List.mem_map_of_mem ServerBullet.prepareRecycle ?_
      refine List.mem_reverse.mpr ?_
      exact List.mem_filter.mpr ⟨List.mem_map_of_mem _ hb, hflag⟩
    · intro hmemid
      obtain ⟨b2, hb2mem, hb2id⟩ := List.mem_map.mp hmemid
      rw [BulletHouse.update_bullets_eq] at hb2mem
      have hb2f := (List.mem_filter.mp hb2mem).2
      obtain ⟨b3, hb3mem, hb3eq⟩ := List.mem_map.mp (List.mem_filter.mp hb2mem).1
      have hnodup : (house.bullets.map (fun c => c.id)).Nodup := by
        have hh := hWF.1
        unfold BulletHouse.allIds at hh
        have hh2 := Multiset.coe_nodup.mp hh
        rw [List.map_append] at hh2
        exact hh2.of_append_left
      have hb3id : b3.id = b.id := by
        rw [← hb3eq] at hb2id
        simpa using hb2id
      have hb3b : b3 = b :=
        List.inj_on_of_nodup_map hnodup hb3mem hb hb3id
      rw [hb3b] at hb3eq
      rw [← hb3eq] at hb2f
      rw [hflag] at hb2f
      simp at hb2f

/-- C9: per-tick toroidal wraparound of a ship with radius `size = 15`:
a coordinate more than one radius past an edge reappears one radius past the
opposite edge, and a ship within the widened bounds is left unchanged by the
edge check. -/
theorem c9_checkEdges_wraparound (w h : ℚ) (p : ServerPlayer)
    (hw : 0 ≤ w) (hh : 0 ≤ h) :
    (p.x > w + ServerPlayer.size →
      (ServerPlayer.checkEdges w h p).x = -ServerPlayer.size) ∧
    (p.x < -ServerPlayer.size →
      (ServerPlayer.checkEdges w h p).x = w + ServerPlayer.size) ∧
    (p.y > h + ServerPlayer.size →
      (ServerPlayer.checkEdges w h p).y = -ServerPlayer.size) ∧
    (p.y < -ServerPlayer.size →
      (ServerPlayer.checkEdges w h p).y = h + ServerPlayer.size) ∧
    (-ServerPlayer.size ≤ p.x → p.x ≤ w + ServerPlayer.size →
      -ServerPlayer.size ≤ p.y → p.y ≤ h + ServerPlayer.size →
      ServerPlayer.checkEdges w h p = p) := by
  have hs : ServerPlayer.size = 15 := rfl
  refine ⟨?_, ?_, ?_, ?_, ?_⟩
  · intro hx
    simp [ServerPlayer.checkEdges, hx]
  · intro hx
    have hnx : ¬(p.x > w + ServerPlayer.size) := by rw [hs] at *; linarith
    simp [ServerPlayer.checkEdges, hnx, hx]
  · intro hy
    simp [ServerPlayer.checkEdges, hy]
  · intro hy
    have hny : ¬(p.y > h + ServerPlayer.size) := by rw [hs] at *; linarith
    simp [ServerPlayer.checkEdges, hny, hy]
  · intro h1 h2 h3 h4
    have hnx1 : ¬(p.x > w + ServerPlayer.size) := not_lt.mpr h2
    have hnx2 : ¬(p.x < -ServerPlayer.size) := not_lt.mpr h1
    have hny1 : ¬(p.y > h + ServerPlayer.size) := not_lt.mpr h4
    have hny2 : ¬(p.y < -ServerPlayer.size) := not_lt.mpr h3
    simp [ServerPlayer.checkEdges, hnx1, hnx2, hny1, hny2]

/-- C6: the eligibility predicates of the collision protocol.  A ship's
`isCollisionTarget` holds exactly for bullets it did not fire that are not
flagged for recycling, and for asteroids; an asteroid's holds exactly for
bullets not flagged for recycling; and a bullet's own `checkCollidedWith`
never initiates a collision check (it resolves nothing, and its own
`isCollisionTarget` is constantly false). -/
theorem c6_collision_eligibility :
    (∀ (s : ServerPlayer) (other : Collidable),
      s.isCollisionTarget other = true ↔
        ((∃ b : ServerBullet, other = Collidable.bullet b ∧
          b.firerId ≠ some s.id ∧ b.needsToBeRecycled = false) ∨
         (∃ a : ServerAsteroid, other = Collidable.asteroid a))) ∧
    (∀ (a : ServerAsteroid) (other : Collidable),
      a.isCollisionTarget other = true ↔
        (∃ b : ServerBullet, other = Collidable.bullet b ∧
          b.needsToBeRecycled = false)) ∧
    (∀ (b : ServerBullet) (others : List (List Collidable)),
      b.checkCollidedWith others = []) ∧
    (∀ (b : ServerBullet) (other : Collidable),
      b.isCollisionTarget other = false) := by
  refine ⟨?_, ?_, ?_, ?_⟩
  · intro s other
    cases other with
    | player q => simp [ServerPlayer.isCollisionTarget]
    | bullet b => simp [ServerPlayer.isCollisionTarget, bne_iff_ne]
    | asteroid a => simp [ServerPlayer.isCollisionTarget]
  · intro a other
    cases other with
    | player q => simp [ServerAsteroid.isCollisionTarget]
    | bullet b => simp [ServerAsteroid.isCollisionTarget]
    | asteroid a2 => simp [ServerAsteroid.isCollisionTarget]
  · intro b others
    rfl
  · intro b other
    rfl

/-- C5: a newly created ship starts with a positive invincibility countdown
(255); each tick decrements it by exactly 1 while positive and it never goes
below 0; the ship is invincible iff the countdown is positive; and an
invincible ship's collision check returns before any eligibility or distance
test, resolving nothing. -/
theorem c5_ship_invincibility (id : ℕ) (name : String) (color : RGB)
    (x y heading0 : ℚ) (then0 : ℤ) (boost : Vec → ℚ → Vec) (clampV : Vec → Vec)
    (rot : Vec → ℚ → Vec) (blink : RGB) (now : ℤ) (freshId : ℕ) (w h : ℚ)
    (p : ServerPlayer) (house : BulletHouse) (others : List (List Collidable))
    (hcd : 0 ≤ p.invincibleCountdown) :
    0 < (ServerPlayer.mk0 id name color x y heading0 then0).invincibleCountdown ∧
    ((ServerPlayer.update boost clampV rot blink now freshId w h p house).1.invincibleCountdown
      = if 0 < p.invincibleCountdown then p.invincibleCountdown - 1
        else p.invincibleCountdown) ∧
    0 ≤ (ServerPlayer.update boost clampV rot blink now freshId w h p house).1.invincibleCountdown ∧
    (p.isInvincible = true ↔ 0 < p.invincibleCountdown) ∧
    (p.isInvincible = true → p.checkCollidedWith others = []) := by
  have hmv : (ServerPlayer.updateMove boost clampV w h p).invincibleCountdown
      = p.invincibleCountdown := rfl
  have hfr : (ServerPlayer.updateFire rot now freshId
      (ServerPlayer.updateMove boost clampV w h p) house).1.invincibleCountdown
      = p.invincibleCountdown := by
    unfold ServerPlayer.updateFire
    dsimp only []
    split_ifs <;> rfl
  have hupd : (ServerPlayer.update boost clampV rot blink now freshId w h p house).1.invincibleCountdown
      = if 0 < p.invincibleCountdown then p.invincibleCountdown - 1
        else p.invincibleCountdown := by
    have h0 : (ServerPlayer.update boost clampV rot blink now freshId w h p house).1.invincibleCountdown
        = if 0 < (ServerPlayer.updateFire rot now freshId
              (ServerPlayer.updateMove boost clampV w h p) house).1.invincibleCountdown
          then (ServerPlayer.updateFire rot now freshId
              (ServerPlayer.updateMove boost clampV w h p) house).1.invincibleCountdown - 1
          else (ServerPlayer.updateFire rot now freshId
              (ServerPlayer.updateMove boost clampV w h p) house).1.invincibleCountdown := rfl
    rw [h0, hfr]
  refine ⟨?_, hupd, ?_, ?_, ?_⟩
  · show (0 : ℤ) < 255
    decide
  · rw [hupd]
    split_ifs with hpos
    · omega
    · exact hcd
  · simp [ServerPlayer.isInvincible]
  · intro hinv
    simp [ServerPlayer.checkCollidedWith, hinv]

/-- The initial velocity of a fired bullet as a function of the firing heading
alone: the float chain `(1,1).rotateBy(heading + HALF_PI).norm().multiplyScalar(speed)`
applied to the unit seed `(1,1)` — per the spec, the unit vector along the
firing direction for `heading` scaled by the fixed projectile speed — carried
abstractly through the rotation-chain parameter `rot` (its numeric value is
floating-point trigonometry). -/
def bulletInitVel (rot : Vec → ℚ → Vec) (heading : ℚ) : Vec := rot (1, 1) heading

/-- C8: `fireBullet(ownerId, x, y, heading, color)` obtains a projectile —
popped from the end of the recycled list when non-empty, else freshly
allocated — sets its firer id, position, heading and color to the arguments,
derives its velocity from the heading alone (`bulletInitVel`, the unit vector
along the firing direction scaled by the fixed projectile speed; this needs
the popped instance's velocity to have been zeroed by the pool reset), and
pushes it onto the end of the active list. -/
theorem c8_fireBullet_contract (rot : Vec → ℚ → Vec) (freshId firerId : ℕ)
    (x y hd : ℚ) (c : RGB) (house : BulletHouse)
    (hreset : ∀ b ∈ house.recycledBullets, b.isReset) :
    ∃ b0 : ServerBullet,
      (house.recycledBullets ≠ [] →
        house.recycledBullets.getLast? = some b0 ∧
        (BulletHouse.fireBullet rot freshId firerId x y hd c house).recycledBullets
          = house.recycledBullets.dropLast) ∧
      (house.recycledBullets = [] →
        b0 = ServerBullet.mk0 freshId ∧
        (BulletHouse.fireBullet rot freshId firerId x y hd c house).recycledBullets
          = []) ∧
      (BulletHouse.fireBullet rot freshId firerId x y hd c house).bullets
        = house.bullets ++ [b0.setInitValues rot firerId x y hd c] ∧
      (b0.setInitValues rot firerId x y hd c).firerId = some firerId ∧
      (b0.setInitValues rot firerId x y hd c).x = x ∧
      (b0.setInitValues rot firerId x y hd c).y = y ∧
      (b0.setInitValues rot firerId x y hd c).heading = hd ∧
      (b0.setInitValues rot firerId x y hd c).color = c ∧
      b0.vel = (0, 0) ∧
      (b0.setInitValues rot firerId x y hd c).vel = bulletInitVel rot hd ∧
      (b0.setInitValues rot firerId x y hd c).needsToBeRecycled = false := by
  cases hl : house.recycledBullets.getLast? with
  | none =>
      have hnil : house.recycledBullets = [] := List.getLast?_eq_none_iff.mp hl
      refine ⟨ServerBullet.mk0 freshId, fun hne => absurd hnil hne,
        fun _ => ⟨rfl, ?_⟩, ?_, rfl, rfl, rfl, rfl, rfl, rfl, ?_, rfl⟩
      · unfold BulletHouse.fireBullet BulletHouse.createOrGetBullet
        rw [hl]
        exact hnil
      · unfold BulletHouse.fireBullet BulletHouse.createOrGetBullet
        rw [hl]
      · unfold ServerBullet.setInitValues bulletInitVel ServerBullet.mk0
        norm_num
  | some b =>
      have hne : house.recycledBullets ≠ [] := by
        intro hnil
        rw [hnil] at hl
        exact Option.noConfusion hl
      have hmem : b ∈ house.recycledBullets := by
        have hgl := List.getLast?_eq_getLast_of_ne_nil hne
        rw [hl] at hgl
        cases Option.some.inj hgl
        exact List.getLast_mem hne
      have hvel : b.vel = (0, 0) := (hreset b hmem).2.2.2.2.1
      have hflag : b.needsToBeRecycled = false := (hreset b hmem).2.2.2.2.2
      refine ⟨b, fun _ => ⟨rfl, ?_⟩, fun hnil => absurd hnil hne,
        ?_, rfl, rfl, rfl, rfl, rfl, hvel, ?_, ?_⟩
      · unfold BulletHouse.fireBullet BulletHouse.createOrGetBullet
        rw [hl]
      · unfold BulletHouse.fireBullet BulletHouse.createOrGetBullet
        rw [hl]
      · unfold ServerBullet.setInitValues bulletInitVel
        rw [hvel]
        norm_num
      · unfold ServerBullet.setInitValues
        exact hflag

/-- C3: `breakAsteroid` on an asteroid present in the world removes it by
identity (the first — and, ids being uuids, only — asteroid with its id);
if it was big, exactly 3 new small asteroids are pushed whose positions are
within the ±20 random offset of the removed asteroid's last position, and the
big-asteroid counter is decremented by 1; if it was small, it is removed and
nothing is added. -/
theorem c3_breakAsteroid_split (g : ServerGameData) (aid : ℕ)
    (rem : ServerAsteroid) (rest : List ServerAsteroid)
    (pieceId : ℕ → ℕ) (pieceRand : ℕ → AstRand)
    (hex : extractFirst (fun v => v.id == aid) g.asteroids = (some rem, rest))
    (hoff : ∀ k, -20 ≤ (pieceRand k).dx ∧ (pieceRand k).dx ≤ 20 ∧
                 -20 ≤ (pieceRand k).dy ∧ (pieceRand k).dy ≤ 20) :
    rem.id = aid ∧
    g.asteroids.Perm (rem :: rest) ∧
    (rem.isBig = true →
      (g.breakAsteroid aid pieceId pieceRand).asteroids
        = rest ++ [ServerAsteroid.createPieceOf (pieceId 0) (pieceRand 0) rem,
                   ServerAsteroid.createPieceOf (pieceId 1) (pieceRand 1) rem,
                   ServerAsteroid.createPieceOf (pieceId 2) (pieceRand 2) rem] ∧
      (∀ k, (ServerAsteroid.createPieceOf (pieceId k) (pieceRand k) rem).isBig = false) ∧
      (∀ k, |(ServerAsteroid.createPieceOf (pieceId k) (pieceRand k) rem).x - rem.x| ≤ 20 ∧
            |(ServerAsteroid.createPieceOf (pieceId k) (pieceRand k) rem).y - rem.y| ≤ 20) ∧
      (g.breakAsteroid aid pieceId pieceRand).curBigAsteroidsCount
        = g.curBigAsteroidsCount - 1 ∧
      ((g.breakAsteroid aid pieceId pieceRand).asteroids.length : ℤ)
        = (g.asteroids.length : ℤ) + 2) ∧
    (rem.isBig = false →
      (g.breakAsteroid aid pieceId pieceRand).asteroids = rest ∧
      ((g.breakAsteroid aid pieceId pieceRand).asteroids.length : ℤ)
        = (g.asteroids.length : ℤ) - 1 ∧
      (g.breakAsteroid aid pieceId pieceRand).curBigAsteroidsCount
        = g.curBigAsteroidsCount) := by
  have hid : rem.id = aid := by
    have := extractFirst_sat hex
    simpa using this
  have hperm : g.asteroids.Perm (rem :: rest) := extractFirst_perm hex
  have hlen : g.asteroids.length = rest.length + 1 := by
    have := hperm.length_eq
    simpa using this
  refine ⟨hid, hperm, ?_, ?_⟩
  · intro hbig
    unfold ServerGameData.breakAsteroid
    rw [hex]
    dsimp only []
    simp only [hbig, eq_self_iff_true, if_true]
    refine ⟨trivial, ?_, ?_, trivial, ?_⟩
    · intro k
      rfl
    · intro k
      have hk := hoff k
      constructor
      · have hx : (ServerAsteroid.createPieceOf (pieceId k) (pieceRand k) rem).x
            = rem.x + (pieceRand k).dx := rfl
        rw [hx]
        rw [abs_le]
        constructor <;> [linarith [hk.1]; linarith [hk.2.1]]
      · have hy : (ServerAsteroid.createPieceOf (pieceId k) (pieceRand k) rem).y
            = rem.y + (pieceRand k).dy := rfl
        rw [hy]
        rw [abs_le]
        constructor <;> [linarith [hk.2.2.1]; linarith [hk.2.2.2]]
    · simp [hlen]
      omega
  · intro hsmall
    unfold ServerGameData.breakAsteroid
    rw [hex]
    dsimp only []
    simp only [hsmall, Bool.false_eq_true, if_false]
    refine ⟨trivial, ?_, trivial⟩
    simp [hlen]

theorem extractFirst_rest_subset {p : α → Bool} {l rest : List α} {ob : Option α}
    (h : extractFirst p l = (ob, rest)) : rest ⊆ l := by
  cases ob with
  | none =>
      rw [extractFirst_none h]
      exact fun a ha => ha
  | some a =>
      intro b hb
      exact (extractFirst_perm h).symm.subset (List.mem_cons_of_mem _ hb)

/-- The active list after `recycleBulletsByFirerId`: exactly the active
bullets whose firer differs. -/
theorem BulletHouse.recycleByFirer_bullets (fid : ℕ) (house : BulletHouse) :
    (BulletHouse.recycleBulletsByFirerId fid house).bullets
      = house.bullets.filter (fun b => !(b.firerId == some fid)) := by
  unfold BulletHouse.recycleBulletsByFirerId
  rw [BulletHouse.recycleByFirerStep_eq]

theorem BulletHouse.recycleById_bullets_subset (bid : ℕ) (house : BulletHouse) :
    ∀ b ∈ (BulletHouse.recycleBulletById bid house).bullets, b ∈ house.bullets := by
  intro b hb
  unfold BulletHouse.recycleBulletById at hb
  rcases hex : extractFirst (fun c => c.id == bid) house.bullets with ⟨ob, rest⟩
  rw [hex] at hb
  cases ob with
  | none => exact hb
  | some d => exact extractFirst_rest_subset hex hb

/-- A concrete game state exercising `Server.bulletKilledPlayer`: one live
ship with id 7, and one active bullet (id 1) whose firer id 99 does not
belong to any live player (its firer has disconnected). -/
def c4Game : ServerGameData :=
  { width := 4000, height := 4000,
    players := [ServerPlayer.mk0 7 "v" { r := 10, g := 20, b := 30 } 0 0 0 0],
    bulletHouse := { recycledBullets := [],
                     bullets := [{ id := 1, x := 5, y := 5, heading := 0,
                                   firerId := some 99, vel := (0, 0),
                                   color := { r := 255, g := 255, b := 255 },
                                   needsToBeRecycled := false }] },
    asteroids := [], curBigAsteroidsCount := 0 }

/-- C4 counterexample: `Server.bulletKilledPlayer` with a firer id (99) whose
lookup returns "not found" skips the entire kill resolution, not only the
scoring side effect — the victim (ship 7) is still in the live player
collection afterwards and no kill notification is sent, contradicting the
claim that the killed ship is removed, its projectiles recycled and the
notification sent with only scoring skipped. -/
theorem c4_counterexample :
    (Server.bulletKilledPlayer [7] (some 99) 1 7 c4Game).1.players.map
        (fun p => p.id) = [7] ∧
    (Server.bulletKilledPlayer [7] (some 99) 1 7 c4Game).2 = [] := by
  constructor <;> rfl

/-- C4 (amended): in `Server.bulletKilledPlayer`, the whole kill resolution is
guarded by the firer lookup: when the bullet's firer id is null, or the firing
player is not found, or the victim is not found, the only side effect is that
the hitting projectile is recycled; when firer and victim are both found, the
victim is removed from the live collection, all projectiles the victim fired
are recycled (followed by the hitting projectile), the kill notification is
sent exactly when the victim's session is still connected, and the firer's
killing score is incremented. -/
theorem c4_bulletKilledPlayer_amended (sockets : List ℕ) (bfirer : Option ℕ)
    (bid pid : ℕ) (g : ServerGameData) :
    ((bfirer = none ∨ (∃ fid, bfirer = some fid ∧ g.getPlayerWithId fid = none)) →
      Server.bulletKilledPlayer sockets bfirer bid pid g
        = ({ g with bulletHouse := BulletHouse.recycleBulletById bid g.bulletHouse }, [])) ∧
    (∀ fid firer, bfirer = some fid → g.getPlayerWithId fid = some firer →
      (extractFirst (fun p => p.id == pid) g.players).1 = none →
      Server.bulletKilledPlayer sockets bfirer bid pid g
        = ({ g with bulletHouse := BulletHouse.recycleBulletById bid g.bulletHouse }, [])) ∧
    (∀ fid firer killed rest, bfirer = some fid →
      g.getPlayerWithId fid = some firer →
      extractFirst (fun p => p.id == pid) g.players = (some killed, rest) →
      (Server.bulletKilledPlayer sockets bfirer bid pid g).1.players
          = rest.map (fun q => if q.id == fid then q.increaseKillingPoint else q) ∧
      (Server.bulletKilledPlayer sockets bfirer bid pid g).1.bulletHouse
          = BulletHouse.recycleBulletById bid
              (BulletHouse.recycleBulletsByFirerId killed.id g.bulletHouse) ∧
      (∀ b ∈ (Server.bulletKilledPlayer sockets bfirer bid pid g).1.bulletHouse.bullets,
        b.firerId ≠ some killed.id) ∧
      (Server.bulletKilledPlayer sockets bfirer bid pid g).2
        = (if sockets.contains killed.id
           then [ServerNotification.killedByPlayer fid killed.id] else [])) := by
  refine ⟨?_, ?_, ?_⟩
  · intro hskip
    rcases hskip with hnone | ⟨fid, hfid, hnf⟩
    · rw [hnone]
      rfl
    · rw [hfid]
      unfold Server.bulletKilledPlayer
      dsimp only []
      rw [hnf]
  · intro fid firer hfid hff hvn
    rw [hfid]
    unfold Server.bulletKilledPlayer
    dsimp only []
    rw [hff]
    rcases hex : extractFirst (fun p => p.id == pid) g.players with ⟨ob, rest⟩
    rw [hex] at hvn
    rw [hex]
    cases ob with
    | some d => simp at hvn
    | none => rfl
  · intro fid firer killed rest hfid hff hex
    rw [hfid]
    unfold Server.bulletKilledPlayer
    dsimp only []
    rw [hff, hex]
    refine ⟨rfl, rfl, ?_, rfl⟩
    intro b hb hbf
    have hb2 := BulletHouse.recycleById_bullets_subset bid
      (BulletHouse.recycleBulletsByFirerId killed.id g.bulletHouse) b hb
    rw [BulletHouse.recycleByFirer_bullets] at hb2
    have := (List.mem_filter.mp hb2).2
    rw [hbf] at this
    simp at this

theorem bigCount_append (l1 l2 : List ServerAsteroid) :
    bigCount (l1 ++ l2) = bigCount l1 + bigCount l2 := by
  unfold bigCount
  rw [List.filter_append, List.length_append]

@[simp] theorem ServerAsteroid.isBig_update (w h : ℚ) (a : ServerAsteroid) :
    (a.update w h).isBig = a.isBig := rfl

@[simp] theorem ServerAsteroid.isBig_setTarget (a : ServerAsteroid) (sp : ℚ)
    (v : Vec) : (a.setTarget sp v).isBig = a.isBig := rfl

@[simp] theorem ServerAsteroid.isBig_mk0 (id : ℕ) (isBig : Bool) (r : AstRand) :
    (ServerAsteroid.mk0 id isBig r).isBig = isBig := rfl

@[simp] theorem ServerAsteroid.isBig_createPieceOf (id : ℕ) (r : AstRand)
    (big : ServerAsteroid) :
    (ServerAsteroid.createPieceOf id r big).isBig = false := rfl

theorem bigCount_asteroidPhase (o : Oracle) (w h : ℚ) (l : List ServerAsteroid) :
    bigCount (asteroidPhase o w h l) = bigCount l := by
  induction l with
  | nil => rfl
  | cons a rest ih =>
      unfold asteroidPhase
      by_cases hn : (a.update w h).needNewTarget
      · by_cases hbg : (a.update w h).isBig
        · rw [if_pos hn, if_pos hbg]
          unfold bigCount at *
          rw [List.filter_cons, List.filter_cons]
          have hbg2 : a.isBig = true := by
            rwa [ServerAsteroid.isBig_update] at hbg
          simp [hbg2, ih]
        · rw [if_pos hn, if_neg hbg]
          have hbg2 : a.isBig = false := by
            rw [ServerAsteroid.isBig_update] at hbg
            simpa using hbg
          unfold bigCount at *
          rw [List.filter_cons]
          simp [hbg2, ih]
      · rw [if_neg hn]
        unfold bigCount at *
        rw [List.filter_cons, List.filter_cons]
        by_cases hbg2 : a.isBig <;>
          simp [hbg2, ih]

theorem bigCount_perm {l1 l2 : List ServerAsteroid} (h : l1.Perm l2) :
    bigCount l1 = bigCount l2 := (h.filter _).length_eq

theorem ServerGameData.breakAsteroid_counterInv (g : ServerGameData) (aid : ℕ)
    (pieceId : ℕ → ℕ) (pieceRand : ℕ → AstRand) (h : g.counterInv) :
    (g.breakAsteroid aid pieceId pieceRand).counterInv := by
  unfold ServerGameData.breakAsteroid
  rcases hex : extractFirst (fun v => v.id == aid) g.asteroids with ⟨ob, rest⟩
  rw [hex]
  cases ob with
  | none => exact h
  | some rem =>
      dsimp only []
      have hbc : bigCount g.asteroids = bigCount (rem :: rest) :=
        bigCount_perm (extractFirst_perm hex)
      unfold ServerGameData.counterInv at *
      by_cases hbg : rem.isBig
      · rw [if_pos hbg]
        show g.curBigAsteroidsCount - 1 = (bigCount (rest ++ _) : ℤ)
        rw [bigCount_append]
        have hcr : bigCount (rem :: rest) = 1 + bigCount rest := by
          unfold bigCount
          rw [List.filter_cons]
          simp [hbg]
          omega
        have hz : bigCount [ServerAsteroid.createPieceOf (pieceId 0) (pieceRand 0) rem,
            ServerAsteroid.createPieceOf (pieceId 1) (pieceRand 1) rem,
            ServerAsteroid.createPieceOf (pieceId 2) (pieceRand 2) rem] = 0 := rfl
        rw [hz, h, hbc, hcr]
        push_cast
        ring
      · rw [if_neg hbg]
        show g.curBigAsteroidsCount = (bigCount rest : ℤ)
        have hcr : bigCount (rem :: rest) = bigCount rest := by
          unfold bigCount
          rw [List.filter_cons]
          simp [hbg]
        rw [h, hbc, hcr]

theorem Server.bulletKilledPlayer_world (sockets : List ℕ) (bfirer : Option ℕ)
    (bid pid : ℕ) (g : ServerGameData) :
    (Server.bulletKilledPlayer sockets bfirer bid pid g).1.asteroids = g.asteroids ∧
    (Server.bulletKilledPlayer sockets bfirer bid pid g).1.curBigAsteroidsCount
      = g.curBigAsteroidsCount := by
  unfold Server.bulletKilledPlayer
  cases bfirer with
  | none => exact ⟨rfl, rfl⟩
  | some fid =>
      dsimp only []
      cases hf : g.getPlayerWithId fid with
      | none => exact ⟨rfl, rfl⟩
      | some firer =>
          rcases hex : extractFirst (fun p => p.id == pid) g.players with ⟨ob, rest⟩
          rw [hex]
          cases ob with
          | none => exact ⟨rfl, rfl⟩
          | some killed => exact ⟨rfl, rfl⟩

theorem Server.bulletKilledAsteroid_counterInv (pieceId : ℕ → ℕ)
    (pieceRand : ℕ → AstRand) (bfirer : Option ℕ) (bid aid : ℕ)
    (g : ServerGameData) (h : g.counterInv) :
    (Server.bulletKilledAsteroid pieceId pieceRand bfirer bid aid g).counterInv := by
  unfold Server.bulletKilledAsteroid
  cases bfirer with
  | none => exact h
  | some fid =>
      dsimp only []
      cases hf : g.getPlayerWithId fid with
      | none => exact h
      | some firer =>
          exact g.breakAsteroid_counterInv aid pieceId pieceRand h

theorem Server.asteroidKilledPlayer_counterInv (sockets : List ℕ)
    (pieceId : ℕ → ℕ) (pieceRand : ℕ → AstRand) (aid pid : ℕ)
    (g : ServerGameData) (h : g.counterInv) :
    (Server.asteroidKilledPlayer sockets pieceId pieceRand aid pid g).1.counterInv := by
  unfold Server.asteroidKilledPlayer
  rcases hex : extractFirst (fun p => p.id == pid) g.players with ⟨ob, rest⟩
  rw [hex]
  cases ob with
  | none => exact ServerGameData.breakAsteroid_counterInv _ aid pieceId pieceRand h
  | some killed => exact ServerGameData.breakAsteroid_counterInv _ aid pieceId pieceRand h

theorem applyGameEvent_counterInv (sockets : List ℕ) (o : Oracle)
    (g : ServerGameData) (e : GameEvent) (h : g.counterInv) :
    (applyGameEvent sockets o g e).counterInv := by
  cases e with
  | bulletKilledPlayer f bid pid =>
      have hw := Server.bulletKilledPlayer_world sockets f bid pid g
      unfold ServerGameData.counterInv at *
      unfold applyGameEvent
      rw [hw.1, hw.2]
      exact h
  | bulletKilledAsteroid f bid aid =>
      exact Server.bulletKilledAsteroid_counterInv _ _ f bid aid g h
  | asteroidKilledPlayer aid pid =>
      exact Server.asteroidKilledPlayer_counterInv sockets _ _ aid pid g h

theorem events_fold_counterInv (sockets : List ℕ) (o : Oracle)
    (es : List GameEvent) (g : ServerGameData) (h : g.counterInv) :
    (es.foldl (applyGameEvent sockets o) g).counterInv := by
  induction es generalizing g with
  | nil => exact h
  | cons e tl ih => exact ih _ (applyGameEvent_counterInv sockets o g e h)

theorem ServerGameData.afterCollisions_counterInv (g : ServerGameData)
    (o : Oracle) (sockets : List ℕ) (h : g.counterInv) :
    (g.afterCollisions o sockets).counterInv := by
  unfold ServerGameData.afterCollisions
  apply events_fold_counterInv
  unfold ServerGameData.counterInv at *
  rw [bigCount_asteroidPhase]
  exact h

theorem bigCount_spawns (n : ℕ) (f : ℕ → ℕ) (r : ℕ → AstRand) :
    bigCount ((List.range n).map (fun k => ServerAsteroid.mk0 (f k) true (r k))) = n := by
  unfold bigCount
  rw [List.filter_map]
  have hc : ((fun a => a.isBig) ∘ fun k => ServerAsteroid.mk0 (f k) true (r k))
      = fun _ => true := rfl
  rw [hc]
  simp

theorem ServerGameData.topUp_counterInv (g : ServerGameData) (o : Oracle)
    (h : g.counterInv) : (g.topUp o).counterInv := by
  unfold ServerGameData.topUp
  split_ifs with hlt
  · unfold ServerGameData.counterInv at *
    show g.curBigAsteroidsCount + ((g.neededBigCount - g.curBigAsteroidsCount).toNat : ℤ)
        = (bigCount (g.asteroids ++ _) : ℤ)
    rw [bigCount_append, bigCount_spawns]
    push_cast
    omega
  · exact h

theorem ServerGameData.mk0_counterInv (astId : ℕ → ℕ) (astRand : ℕ → AstRand) :
    (ServerGameData.mk0 astId astRand).counterInv := by
  unfold ServerGameData.counterInv ServerGameData.mk0
  rw [bigCount_spawns]
  rfl

theorem ServerGameData.update_eq (g : ServerGameData) (o : Oracle)
    (sockets : List ℕ) :
    g.update o sockets = (g.afterCollisions o sockets).topUp o := rfl

theorem ServerGameData.topUp_players (g : ServerGameData) (o : Oracle) :
    (g.topUp o).players = g.players := by
  unfold ServerGameData.topUp
  split_ifs <;> rfl

theorem ServerGameData.neededBigCount_topUp (g : ServerGameData) (o : Oracle) :
    (g.topUp o).neededBigCount = g.neededBigCount := by
  unfold ServerGameData.neededBigCount
  rw [ServerGameData.topUp_players]

theorem ServerGameData.topUp_reaches_floor (g : ServerGameData) (o : Oracle) :
    g.neededBigCount ≤ (g.topUp o).curBigAsteroidsCount := by
  unfold ServerGameData.topUp
  split_ifs with hlt
  · show g.neededBigCount ≤ g.curBigAsteroidsCount
        + ((g.neededBigCount - g.curBigAsteroidsCount).toNat : ℤ)
    omega
  · omega

theorem ServerGameData.topUp_spawn_shortfall (g : ServerGameData) (o : Oracle) :
    ((g.topUp o).asteroids.length : ℤ) = (g.asteroids.length : ℤ)
      + max 0 (g.neededBigCount - g.curBigAsteroidsCount) := by
  unfold ServerGameData.topUp
  split_ifs with hlt
  · show ((g.asteroids ++ _).length : ℤ) = _
    rw [List.length_append, List.length_map, List.length_range]
    push_cast
    omega
  · simp
    omega

/-- C10: in every reachable state of `ServerGameData`, the counter
`curBigAsteroidsCount` equals the number of asteroids with `isBig = true` in
the asteroids collection — the constructor establishes it and every mutating
operation of the core (tick, login, disconnect, input, `breakAsteroid`,
bullet recycling, and each collision-handler reaction) preserves it — so the
population-floor check always compares against the true big-asteroid count. -/
theorem c10_counter_matches_bigCount (g : ServerGameData)
    (hreach : g.Reachable) : g.counterInv := by
  induction hreach with
  | init astId astRand => exact ServerGameData.mk0_counterInv astId astRand
  | update o sockets _ ih =>
      exact ServerGameData.topUp_counterInv _ o
        (ServerGameData.afterCollisions_counterInv _ o _ ih)
  | addPlayer id name color heading0 then0 _ ih =>
      unfold ServerGameData.addPlayer
      split_ifs <;> exact ih
  | removePlayer id hpr ih =>
      rename_i g2
      unfold ServerGameData.removePlayerById
      rcases hex : extractFirst (fun p => p.id == id) g2.players with ⟨ob, rest⟩
      rw [hex]
      cases ob with
      | none => exact ih
      | some p => exact ih
  | breakAsteroid aid pieceId pieceRand _ ih =>
      exact ServerGameData.breakAsteroid_counterInv _ aid pieceId pieceRand ih
  | recycleById bid _ ih => exact ih
  | recycleByFirer fid _ ih => exact ih
  | applyInput id input _ ih => exact ih
  | event sockets o e _ ih => exact applyGameEvent_counterInv sockets o _ e ih

/-- C1: after every complete tick of `ServerGameData.update` on a state whose
big-asteroid counter is accurate (true in every reachable state), the number
of big asteroids in the world is at least `max(7, 3 × number of live
players)`, and the top-up step at the end of the tick spawns exactly the
shortfall between the big-asteroid count left by the collision phase and that
floor (zero when the count already meets it). -/
theorem c1_population_floor (g : ServerGameData) (o : Oracle) (sockets : List ℕ)
    (hinv : g.counterInv) :
    (g.update o sockets).neededBigCount ≤ (bigCount (g.update o sockets).asteroids : ℤ) ∧
    ((g.update o sockets).asteroids.length : ℤ)
      = ((g.afterCollisions o sockets).asteroids.length : ℤ)
        + max 0 ((g.afterCollisions o sockets).neededBigCount
            - (g.afterCollisions o sockets).curBigAsteroidsCount) := by
  have h4 : (g.afterCollisions o sockets).counterInv :=
    ServerGameData.afterCollisions_counterInv g o sockets hinv
  have hc : ((g.afterCollisions o sockets).topUp o).counterInv :=
    ServerGameData.topUp_counterInv _ o h4
  constructor
  · rw [ServerGameData.update_eq, ServerGameData.neededBigCount_topUp]
    have hfl := ServerGameData.topUp_reaches_floor (g.afterCollisions o sockets) o
    unfold ServerGameData.counterInv at hc
    omega
  · rw [ServerGameData.update_eq]
    exact ServerGameData.topUp_spawn_shortfall (g.afterCollisions o sockets) o

instance (g : ServerGameData) : Decidable g.counterInv := by
  unfold ServerGameData.counterInv
  infer_instance

instance (house : BulletHouse) : Decidable house.WF := by
  unfold BulletHouse.WF
  infer_instance

/-- A plain color for concrete test fixtures. -/
def rgb0 : RGB := { r := 0, g := 0, b := 0 }

/-- Concrete asteroid random draws for test fixtures. -/
def astRand0 : AstRand :=
  { sx := -150, sy := 100, rotationSpeed := 1, speed := 1, maxD := 90,
    minD := 50, verts := [], dx := 0, dy := 0, pieceVel := (1, 0) }

/-- A trivial tick oracle (inert float chains, empty collision pass). -/
def oracle0 : Oracle :=
  { boost := fun v _ => v, clampV := fun v => v, rot := fun v _ => v,
    blink := fun _ => rgb0, now := fun _ => 0,
    bulletId := fun k => k, retarget := fun _ => (1, (1, 0)),
    events := [], pieceId := fun a k => a + k, pieceRand := fun _ _ => astRand0,
    spawnId := fun k => 1000 + k, spawnRand := fun _ => astRand0 }

/-- An empty world (no players, no asteroids, empty pool). -/
def gEmpty : ServerGameData :=
  { width := 4000, height := 4000, players := [], bulletHouse := BulletHouse.empty,
    asteroids := [], curBigAsteroidsCount := 0 }

theorem c1_population_floor_witness :
    gEmpty.counterInv ∧
    (gEmpty.update oracle0 []).neededBigCount
      ≤ (bigCount (gEmpty.update oracle0 []).asteroids : ℤ) :=
  ⟨by decide, (c1_population_floor gEmpty oracle0 [] (by decide)).1⟩

/-- A concrete pool with one active bullet and one recycled (reset) bullet. -/
def houseW : BulletHouse :=
  { recycledBullets := [ServerBullet.prepareRecycle (ServerBullet.mk0 5)],
    bullets := [ServerBullet.mk0 6] }

theorem c2_pool_exactly_one_witness :
    houseW.WF ∧ (7 : ℕ) ∉ houseW.allIds ∧
    (BulletHouse.update 4000 4000 houseW).WF :=
  ⟨by decide, by decide,
   (c2_pool_exactly_one 4000 4000 (fun v _ => v) houseW 1 2 3 7 0 0 0 rgb0
     (by decide) (by decide)).1.1⟩

/-- A concrete big asteroid and a world containing just it. -/
def astBig : ServerAsteroid := ServerAsteroid.mk0 42 true astRand0

/-- A world holding only `astBig`. -/
def gAst : ServerGameData :=
  { width := 4000, height := 4000, players := [], bulletHouse := BulletHouse.empty,
    asteroids := [astBig], curBigAsteroidsCount := 1 }

theorem c3_breakAsteroid_split_witness :
    extractFirst (fun v => v.id == astBig.id) gAst.asteroids = (some astBig, []) ∧
    (gAst.breakAsteroid astBig.id (fun k => 100 + k) (fun _ => astRand0)).curBigAsteroidsCount
      = gAst.curBigAsteroidsCount - 1 :=
  ⟨by decide,
   ((c3_breakAsteroid_split gAst astBig.id astBig [] (fun k => 100 + k)
       (fun _ => astRand0) (by decide) (fun _ => by norm_num [astRand0])).2.2.1
     (by decide)).2.2.2.1⟩

/-- A concrete firing ship (id 9) for the kill scenario. -/
def firerW : ServerPlayer := ServerPlayer.mk0 9 "f" rgb0 0 0 0 0

/-- A concrete victim ship (id 7) for the kill scenario. -/
def victimW : ServerPlayer := ServerPlayer.mk0 7 "v" rgb0 0 0 0 0

/-- A world with the firer and the victim both live. -/
def gKill : ServerGameData :=
  { width := 4000, height := 4000, players := [firerW, victimW],
    bulletHouse := BulletHouse.empty, asteroids := [], curBigAsteroidsCount := 0 }

theorem c4_bulletKilledPlayer_amended_witness :
    gKill.getPlayerWithId 9 = some firerW ∧
    (Server.bulletKilledPlayer [7] (some 9) 1 7 gKill).2
      = [ServerNotification.killedByPlayer 9 7] := by
  refine ⟨by decide, ?_⟩
  have h := (c4_bulletKilledPlayer_amended [7] (some 9) 1 7 gKill).2.2 9 firerW
    victimW [firerW] rfl (by decide) (by decide)
  rw [h.2.2.2]
  decide

/-- A freshly logged-in ship for the invincibility scenario. -/
def pW5 : ServerPlayer := ServerPlayer.mk0 2 "b" rgb0 0 0 0 0

theorem c5_ship_invincibility_witness :
    (0 : ℤ) ≤ pW5.invincibleCountdown ∧
    (pW5.isInvincible = true → pW5.checkCollidedWith [] = []) :=
  ⟨by decide,
   (c5_ship_invincibility 2 "b" rgb0 0 0 0 0 (fun v _ => v) (fun v => v)
     (fun v _ => v) rgb0 0 0 100 100 pW5 BulletHouse.empty [] (by decide)).2.2.2.2⟩

theorem c7_projectile_lifecycle_witness :
    houseW.WF ∧
    ∀ b2 ∈ (BulletHouse.update 10 10 houseW).bullets,
      b2.needsToBeRecycled = false :=
  ⟨by decide, (c7_projectile_lifecycle 10 10 houseW (by decide)).2.2.2.2.2.1⟩

theorem c8_fireBullet_contract_witness :
    (∀ b ∈ houseW.recycledBullets, b.isReset) ∧
    (BulletHouse.fireBullet (fun v _ => v) 7 6 1 2 3 rgb0 houseW).bullets.length
      = houseW.bullets.length + 1 := by
  refine ⟨by decide, ?_⟩
  obtain ⟨b0, hpop, hnil, hb, hrest⟩ :=
    c8_fireBullet_contract (fun v _ => v) 7 6 1 2 3 rgb0 houseW (by decide)
  rw [hb]
  simp

/-- A ship out past the right edge for the wraparound scenario. -/
def pW9 : ServerPlayer := ServerPlayer.mk0 1 "a" rgb0 200 0 0 0

theorem c9_checkEdges_wraparound_witness :
    (0 : ℚ) ≤ 100 ∧ (ServerPlayer.checkEdges 100 100 pW9).x = -ServerPlayer.size :=
  ⟨by norm_num,
   (c9_checkEdges_wraparound 100 100 pW9 (by norm_num) (by norm_num)).1
     (by show (200 : ℚ) > 100 + 15; norm_num)⟩

theorem c10_counter_matches_bigCount_witness :
    (ServerGameData.mk0 (fun k => k) (fun _ => astRand0)).counterInv :=
  c10_counter_matches_bigCount _
    (ServerGameData.Reachable.init (fun k => k) (fun _ => astRand0))
